import Mathlib

/-!
Verification of the credential / session-token core of the backend
(src/backend/app/core/auth.py and src/backend/app/routers/auth.py).

The Python code is shallowly embedded: the MongoDB collections become lists,
the process randomness source (secrets.token_urlsafe, ObjectId generation)
becomes a strictly increasing counter drawn from the state, JWTs become
records pairing a claims payload with the signing key (signature verification
is key comparison), and wall-clock time is a natural number carried in the
state.  Every router handler becomes a pure function from a state and a
parsed request to a result (outcome, cookie action, next state).
-/

/-- core/auth.py line 28: access token TTL in minutes (default "15"). -/
def ACCESS_TOKEN_EXPIRE_MINUTES : Nat := 15

/-- core/auth.py line 29: refresh token TTL in days (default "7"). -/
def REFRESH_TOKEN_EXPIRE_DAYS : Nat := 7

/-- core/auth.py line 25: the access-token signing secret actually used by the
codec, standing for whatever value module initialization produced. -/
def SECRET_KEY : String := "access-signing-secret"

/-- core/auth.py line 26: the refresh-token signing secret; independent from
the access secret. -/
def REFRESH_SECRET_KEY : String := "refresh-signing-secret"

/-- core/auth.py lines 25-26: module-level secret initialization,
SECRET_KEY = os.getenv("JWT_SECRET_KEY", secrets.token_urlsafe(64)).
The environment is a lookup function; the second argument is the ephemeral
value drawn from the randomness source.  Initialization is total: there is
no failure path, whatever the environment (in particular whatever the
ENVIRONMENT variable says). -/
def initSECRET_KEY (getenv : String → Option String) (generated : String) : String :=
  (getenv "JWT_SECRET_KEY").getD generated

/-- core/auth.py line 26: same fallback shape for the refresh secret. -/
def initREFRESH_SECRET_KEY (getenv : String → Option String) (generated : String) : String :=
  (getenv "JWT_REFRESH_SECRET_KEY").getD generated

/-- AccessClaims: the payload of an access JWT
(core/auth.py create_access_token, lines 126-134). -/
structure AccessPayload where
  sub : String
  email : String
  role : String
  type : String
  iat : Nat
  exp : Nat
  deriving DecidableEq, Repr

/-- A signed access token: jwt.encode(payload, key) is modeled as the pair of
the payload and the signing key; signature verification is key equality. -/
structure AccessTok where
  payload : AccessPayload
  key : String
  deriving DecidableEq, Repr

/-- RefreshClaims: the payload of a refresh JWT
(core/auth.py create_refresh_token, lines 156-163).  The random family id and
the random jti (secrets.token_urlsafe draws) are modeled as counter values. -/
structure RefreshPayload where
  sub : String
  type : String
  family : Nat
  jti : Nat
  iat : Nat
  exp : Nat
  deriving DecidableEq, Repr

/-- A signed refresh token, same modeling as AccessTok. -/
structure RefreshTok where
  payload : RefreshPayload
  key : String
  deriving DecidableEq, Repr

/-- Failure modes of jwt.decode plus the wrapper type check
(jose raises JWTError / ExpiredSignatureError; the wrappers raise JWTError
"Invalid token type" when the class discriminator is wrong). -/
inductive JWTDecodeError
  | invalidSignature
  | expiredSignature
  | invalidType
  deriving DecidableEq, Repr

/-- core/auth.py create_access_token (lines 109-137), with extra_claims = None
(its default; no caller in the auth router passes extra claims). -/
def create_access_token (now : Nat) (user_id : String) (email : String)
    (role : String := "student") : AccessTok :=
  { payload :=
      { sub := user_id, email := email, role := role, type := "access",
        iat := now, exp := now + ACCESS_TOKEN_EXPIRE_MINUTES * 60 },
    key := SECRET_KEY }

/-- core/auth.py create_refresh_token (lines 140-165).
Takes the current counter value (the randomness source) and returns
(token, family, expires_at, next counter).  A fresh family is drawn only on
the login path (token_family = none); the jti is drawn on every call. -/
def create_refresh_token (now : Nat) (ctr : Nat) (user_id : String)
    (token_family : Option Nat) : RefreshTok × Nat × Nat × Nat :=
  let family := token_family.getD ctr
  let ctr1 := if token_family.isSome then ctr else ctr + 1
  let expires_at := now + REFRESH_TOKEN_EXPIRE_DAYS * 86400
  let tok : RefreshTok :=
    { payload :=
        { sub := user_id, type := "refresh", family := family, jti := ctr1,
          iat := now, exp := expires_at },
      key := REFRESH_SECRET_KEY }
  (tok, family, expires_at, ctr1 + 1)

/-- core/auth.py decode_access_token (lines 172-182): jwt.decode verifies the
signature and the exp claim (RFC 7519: invalid once the current time is at or
after exp), then the wrapper checks the class discriminator. -/
def decode_access_token (now : Nat) (t : AccessTok) : Except JWTDecodeError AccessPayload :=
  if t.key ≠ SECRET_KEY then .error .invalidSignature
  else if t.payload.exp ≤ now then .error .expiredSignature
  else if t.payload.type ≠ "access" then .error .invalidType
  else .ok t.payload

/-- core/auth.py decode_refresh_token (lines 185-195). -/
def decode_refresh_token (now : Nat) (t : RefreshTok) : Except JWTDecodeError RefreshPayload :=
  if t.key ≠ REFRESH_SECRET_KEY then .error .invalidSignature
  else if t.payload.exp ≤ now then .error .expiredSignature
  else if t.payload.type ≠ "refresh" then .error .invalidType
  else .ok t.payload

/-- core/auth.py hash_password (lines 87-89): Argon2id modeled as a perfect
one-way function — the hash is an opaque string determined by the password.
The Argon2 cost parameters are the fixed ones of the module-level hasher. -/
def hash_password (password : String) : String :=
  "argon2id$hash$" ++ password

/-- core/auth.py verify_password (lines 92-97): true exactly when the hash was
produced from this password by the hasher; never throws (mismatch and
malformed hash both return false). -/
def verify_password (password : String) (hashed : String) : Bool :=
  hashed = hash_password password

/-- core/auth.py check_needs_rehash (lines 100-102): every hash produced by
the modeled hasher carries its current parameters, so no hash needs rehash. -/
def check_needs_rehash (_hashed : String) : Bool :=
  false

/-- The punctuation set of core/auth.py line 223. -/
def specialCharacters : List Char :=
  ['!', '@', '#', '$', '%', '^', '&', '*', '(', ')', '_', '+', '-', '=',
   '[', ']', '\x7b', '\x7d', '|', ';', Char.ofNat 39, ':', '\"', ',', '.',
   '/', '<', '>', '?']

/-- core/auth.py validate_password_strength (lines 202-225).
Returns (is_valid, error_message); the first violated rule, in source order,
determines the message. -/
def validate_password_strength (password : String) : Bool × String :=
  if password.length < 8 then
    (false, "Password must be at least 8 characters long")
  else if ¬ password.toList.any (fun c => c.isUpper) then
    (false, "Password must contain at least one uppercase letter")
  else if ¬ password.toList.any (fun c => c.isLower) then
    (false, "Password must contain at least one lowercase letter")
  else if ¬ password.toList.any (fun c => c.isDigit) then
    (false, "Password must contain at least one digit")
  else if ¬ password.toList.any (fun c => specialCharacters.contains c) then
    (false, "Password must contain at least one special character")
  else
    (true, "")

/-- core/auth.py RegisterRequest (lines 52-61).  The optional role field is
part of the accepted request schema (pattern student|admin). -/
structure RegisterRequest where
  email : String
  password : String
  firstName : String
  lastName : String
  matricNumber : Option String
  phone : Option String
  level : Option String
  admissionYear : Option Nat
  role : Option String
  deriving DecidableEq, Repr

/-- core/auth.py LoginRequest (lines 64-66). -/
structure LoginRequest where
  email : String
  password : String
  deriving DecidableEq, Repr

/-- core/auth.py ChangePasswordRequest (lines 69-71). -/
structure ChangePasswordRequest where
  currentPassword : String
  newPassword : String
  deriving DecidableEq, Repr

/-- A document of the users collection, with the fields the register handler
writes (routers/auth.py lines 137-156).  Fields the handlers read through
dict.get with a default are Options.  Mongo ObjectIds are modeled as strings
(str(_id) and ObjectId(user_id) are both the identity here). -/
structure UserDoc where
  _id : String
  email : String
  passwordHash : Option String
  firstName : String
  lastName : String
  matricNumber : Option String
  phone : Option String
  currentLevel : Option String
  admissionYear : Option Nat
  department : String
  role : Option String
  bio : Option String
  profilePictureUrl : Option String
  skills : List String
  emailVerified : Bool
  hasCompletedOnboarding : Bool
  isActive : Option Bool
  createdAt : Nat
  updatedAt : Nat
  lastLogin : Option Nat
  deriving DecidableEq, Repr

/-- A document of the refresh_tokens collection
(routers/auth.py _store_refresh_token, lines 75-84), plus the Mongo-assigned
_id (drawn from the counter at insertion time, like every random value). -/
structure RefreshTokenRecord where
  _id : Nat
  token : RefreshTok
  userId : String
  family : Nat
  expiresAt : Nat
  isRevoked : Bool
  createdAt : Nat
  deriving DecidableEq, Repr

/-- The mutable world the auth handlers touch: the users and refresh_tokens
collections, the randomness counter and the wall clock.  (The sessions and
enrollments collections touched only by _auto_enroll are not modeled: no
claim mentions them and the auth handlers never read them back.) -/
structure AuthState where
  users : List UserDoc
  refresh_tokens : List RefreshTokenRecord
  ctr : Nat
  now : Nat
  deriving DecidableEq, Repr

/-- users.find_one by email (routers/auth.py lines 123, 199). -/
def findUserByEmail (users : List UserDoc) (email : String) : Option UserDoc :=
  users.find? (fun u => u.email = email)

/-- users.find_one by _id (routers/auth.py lines 322, 383). -/
def findUserById (users : List UserDoc) (uid : String) : Option UserDoc :=
  users.find? (fun u => u._id = uid)

/-- db.refresh_tokens.find_one by token value (routers/auth.py line 294). -/
def findTokenRecord (records : List RefreshTokenRecord) (t : RefreshTok) :
    Option RefreshTokenRecord :=
  records.find? (fun r => r.token = t)

/-- routers/auth.py _revoke_token_family (lines 87-92): update_many setting
isRevoked = true on every record of the family. -/
def _revoke_token_family (records : List RefreshTokenRecord) (family : Nat) :
    List RefreshTokenRecord :=
  records.map (fun r => if r.family = family then { r with isRevoked := true } else r)

/-- routers/auth.py lines 315-318: update_one(matching _id, set isRevoked = true).
Mongo's update_one updates the first matching document, unconditionally —
there is no isRevoked = false condition in the filter and the matched count
is not consulted. -/
def markRevokedById : List RefreshTokenRecord → Nat → List RefreshTokenRecord
  | [], _ => []
  | r :: rs, i =>
      if r._id = i then { r with isRevoked := true } :: rs
      else r :: markRevokedById rs i

/-- routers/auth.py lines 220-224: update_one setting only passwordHash
(the rehash-on-login path). -/
def setUserHashOnly : List UserDoc → String → String → List UserDoc
  | [], _, _ => []
  | u :: us, uid, h =>
      if u._id = uid then { u with passwordHash := some h } :: us
      else u :: setUserHashOnly us uid h

/-- routers/auth.py lines 230-233: update_one setting lastLogin. -/
def setLastLogin : List UserDoc → String → Nat → List UserDoc
  | [], _, _ => []
  | u :: us, uid, now =>
      if u._id = uid then { u with lastLogin := some now } :: us
      else u :: setLastLogin us uid now

/-- routers/auth.py lines 397-400: update_one setting passwordHash and
updatedAt (the change-password path). -/
def setUserPassword : List UserDoc → String → String → Nat → List UserDoc
  | [], _, _, _ => []
  | u :: us, uid, h, now =>
      if u._id = uid then { u with passwordHash := some h, updatedAt := now } :: us
      else u :: setUserPassword us uid h now

/-- routers/auth.py _store_refresh_token (lines 75-84): insert_one of a fresh
record, isRevoked = false, createdAt = now; the Mongo _id is drawn from the
counter. -/
def _store_refresh_token (st : AuthState) (user_id : String) (tok : RefreshTok)
    (family : Nat) (expires_at : Nat) : AuthState :=
  { st with
    refresh_tokens := st.refresh_tokens ++
      [{ _id := st.ctr, token := tok, userId := user_id, family := family,
         expiresAt := expires_at, isRevoked := false, createdAt := st.now }],
    ctr := st.ctr + 1 }

/-- core/auth.py TokenPair (lines 45-49). -/
structure TokenPair where
  access_token : AccessTok
  refresh_token : RefreshTok
  token_type : String
  expires_in : Nat
  deriving DecidableEq, Repr

/-- An HTTPException surfaced to the client: status code and detail. -/
structure HTTPErrorResponse where
  status : Nat
  detail : String
  deriving DecidableEq, Repr

/-- What a handler did to the refresh cookie: _set_refresh_cookie,
_clear_refresh_cookie, or neither. -/
inductive CookieAction
  | setCookie (tok : RefreshTok)
  | clearCookie
  | noChange
  deriving DecidableEq, Repr

/-- The body a handler returns: a TokenPair, a message object, or an
HTTPException. -/
inductive AuthOutcome
  | tokens (pair : TokenPair)
  | message (msg : String)
  | failure (e : HTTPErrorResponse)
  deriving DecidableEq, Repr

/-- Result of one handler invocation: response body, cookie effect, and the
database state after the call. -/
structure AuthResult where
  outcome : AuthOutcome
  cookie : CookieAction
  state : AuthState
  deriving DecidableEq, Repr

/-- routers/auth.py register (lines 99-175): password strength check first,
then email uniqueness, then the user document is built with role = "student"
regardless of the requested role (lines 133-135), inserted, and the same token
issuance as login is performed.  The inserted ObjectId is drawn from the
counter. -/
def register (st : AuthState) (data : RegisterRequest) : AuthResult :=
  match validate_password_strength data.password with
  | (is_valid, err) =>
    if ¬ is_valid then
      { outcome := .failure { status := 400, detail := err },
        cookie := .noChange, state := st }
    else
      match findUserByEmail st.users data.email with
      | some _ =>
          { outcome := .failure
              { status := 409, detail := "An account with this email already exists" },
            cookie := .noChange, state := st }
      | none =>
          let role := "student"
          let user_id := toString st.ctr
          let user_doc : UserDoc :=
            { _id := user_id, email := data.email,
              passwordHash := some (hash_password data.password),
              firstName := data.firstName, lastName := data.lastName,
              matricNumber := data.matricNumber, phone := data.phone,
              currentLevel := data.level, admissionYear := data.admissionYear,
              department := "Industrial Engineering", role := some role,
              bio := none, profilePictureUrl := none, skills := [],
              emailVerified := false, hasCompletedOnboarding := false,
              isActive := some true, createdAt := st.now, updatedAt := st.now,
              lastLogin := none }
          let st1 : AuthState :=
            { st with users := st.users ++ [user_doc], ctr := st.ctr + 1 }
          let access := create_access_token st.now user_id data.email role
          match create_refresh_token st.now st1.ctr user_id none with
          | (refresh, family, expires_at, ctr1) =>
            let st2 := _store_refresh_token { st1 with ctr := ctr1 } user_id refresh
                family expires_at
            { outcome := .tokens
                { access_token := access, refresh_token := refresh,
                  token_type := "bearer",
                  expires_in := ACCESS_TOKEN_EXPIRE_MINUTES * 60 },
              cookie := .setCookie refresh, state := st2 }

/-- routers/auth.py login (lines 182-246).  A missing user or missing stored
hash and a password mismatch share one response (401, "Invalid email or
password"); a deactivated account gets its own 403 before the password is
checked.  On success the hash is transparently upgraded when needed, lastLogin
is written, and a token pair with a freshly drawn family is issued. -/
def login (st : AuthState) (data : LoginRequest) : AuthResult :=
  match findUserByEmail st.users data.email with
  | none =>
      { outcome := .failure { status := 401, detail := "Invalid email or password" },
        cookie := .noChange, state := st }
  | some user =>
    match user.passwordHash with
    | none =>
        { outcome := .failure { status := 401, detail := "Invalid email or password" },
          cookie := .noChange, state := st }
    | some pwHash =>
      if ¬ (user.isActive.getD true) then
        { outcome := .failure
            { status := 403, detail := "Account is deactivated. Contact admin." },
          cookie := .noChange, state := st }
      else if ¬ verify_password data.password pwHash then
        { outcome := .failure { status := 401, detail := "Invalid email or password" },
          cookie := .noChange, state := st }
      else
        let users1 :=
          if check_needs_rehash pwHash then
            setUserHashOnly st.users user._id (hash_password data.password)
          else st.users
        let user_id := user._id
        let role := user.role.getD "student"
        let users2 := setLastLogin users1 user_id st.now
        let access := create_access_token st.now user_id user.email role
        match create_refresh_token st.now st.ctr user_id none with
        | (refresh, family, expires_at, ctr1) =>
          let st1 : AuthState := { st with users := users2, ctr := ctr1 }
          let st2 := _store_refresh_token st1 user_id refresh family expires_at
          { outcome := .tokens
              { access_token := access, refresh_token := refresh,
                token_type := "bearer",
                expires_in := ACCESS_TOKEN_EXPIRE_MINUTES * 60 },
            cookie := .setCookie refresh, state := st2 }

/-- routers/auth.py refresh_token, lines 305-343: the part of the handler
after the stored record has been read by find_one.  The isRevoked test is on
the value that was read; the revocation write (lines 315-318) is the
unconditional update_one by _id.  Factoring the handler at its database
accesses lets the interleaving of two concurrent calls be expressed. -/
def refreshConsume (st : AuthState) (payload : RefreshPayload)
    (stored : RefreshTokenRecord) : AuthResult :=
  if stored.isRevoked then
    { outcome := .failure
        { status := 401,
          detail := "Refresh token reuse detected. All sessions revoked for security." },
      cookie := .clearCookie,
      state := { st with
        refresh_tokens := _revoke_token_family st.refresh_tokens payload.family } }
  else
    let st1 : AuthState :=
      { st with refresh_tokens := markRevokedById st.refresh_tokens stored._id }
    match findUserById st1.users payload.sub with
    | none =>
        { outcome := .failure { status := 401, detail := "User not found" },
          cookie := .clearCookie, state := st1 }
    | some user =>
        let role := user.role.getD "student"
        let access := create_access_token st1.now payload.sub user.email role
        match create_refresh_token st1.now st1.ctr payload.sub (some payload.family) with
        | (new_refresh, _, expires_at, ctr1) =>
          let st2 := _store_refresh_token { st1 with ctr := ctr1 } payload.sub new_refresh
              payload.family expires_at
          { outcome := .tokens
              { access_token := access, refresh_token := new_refresh,
                token_type := "bearer",
                expires_in := ACCESS_TOKEN_EXPIRE_MINUTES * 60 },
            cookie := .setCookie new_refresh, state := st2 }

/-- routers/auth.py refresh_token (lines 253-343).  The token argument is the
value extracted from the cookie or the body fallback (none when neither is
present).  Decode failure clears the cookie; a well-formed token absent from
the store or found revoked revokes its whole family and fails; otherwise the
read record is consumed by refreshConsume. -/
def refresh_token (st : AuthState) (token : Option RefreshTok) : AuthResult :=
  match token with
  | none =>
      { outcome := .failure { status := 401, detail := "No refresh token provided" },
        cookie := .noChange, state := st }
  | some tok =>
    match decode_refresh_token st.now tok with
    | .error _ =>
        { outcome := .failure
            { status := 401, detail := "Invalid or expired refresh token" },
          cookie := .clearCookie, state := st }
    | .ok payload =>
      match findTokenRecord st.refresh_tokens tok with
      | none =>
          { outcome := .failure
              { status := 401,
                detail := "Refresh token not recognized. All sessions revoked for security." },
            cookie := .clearCookie,
            state := { st with
              refresh_tokens := _revoke_token_family st.refresh_tokens payload.family } }
      | some stored => refreshConsume st payload stored

/-- routers/auth.py logout (lines 350-364): best-effort decode, family
revocation when decodable, always clears the cookie and reports success. -/
def logout (st : AuthState) (token : Option RefreshTok) : AuthResult :=
  match token with
  | none =>
      { outcome := .message "Logged out successfully", cookie := .clearCookie, state := st }
  | some tok =>
    match decode_refresh_token st.now tok with
    | .error _ =>
        { outcome := .message "Logged out successfully", cookie := .clearCookie, state := st }
    | .ok payload =>
        { outcome := .message "Logged out successfully", cookie := .clearCookie,
          state := { st with
            refresh_tokens := _revoke_token_family st.refresh_tokens payload.family } }

/-- routers/auth.py change_password (lines 371-402): the user_id is the _id of
the authenticated user (from the access-token dependency).  Re-verifies the
current password, validates the new one, persists the new hash; it never
touches the refresh_tokens collection. -/
def change_password (st : AuthState) (user_id : String)
    (data : ChangePasswordRequest) : AuthResult :=
  match findUserById st.users user_id with
  | none =>
      { outcome := .failure { status := 400, detail := "Cannot change password" },
        cookie := .noChange, state := st }
  | some user_doc =>
    match user_doc.passwordHash with
    | none =>
        { outcome := .failure { status := 400, detail := "Cannot change password" },
          cookie := .noChange, state := st }
    | some pwHash =>
      if ¬ verify_password data.currentPassword pwHash then
        { outcome := .failure { status := 401, detail := "Current password is incorrect" },
          cookie := .noChange, state := st }
      else
        match validate_password_strength data.newPassword with
        | (is_valid, err) =>
          if ¬ is_valid then
            { outcome := .failure { status := 400, detail := err },
              cookie := .noChange, state := st }
          else
            { outcome := .message "Password changed successfully", cookie := .noChange,
              state := { st with
                users := setUserPassword st.users user_id
                  (hash_password data.newPassword) st.now } }

/-- One client-visible operation of the protocol, for sequential executions. -/
inductive Op
  | opRegister (data : RegisterRequest)
  | opLogin (data : LoginRequest)
  | opRefresh (token : Option RefreshTok)
  | opLogout (token : Option RefreshTok)
  | opChangePassword (user_id : String) (data : ChangePasswordRequest)
  deriving Repr

/-- The state reached after one operation. -/
def applyOp (st : AuthState) : Op → AuthState
  | .opRegister d => (register st d).state
  | .opLogin d => (login st d).state
  | .opRefresh t => (refresh_token st t).state
  | .opLogout t => (logout st t).state
  | .opChangePassword uid d => (change_password st uid d).state

/-- The state reached after a sequence of operations. -/
def applyOps (st : AuthState) : List Op → AuthState
  | [] => st
  | op :: ops => applyOps (applyOp st op) ops

/-- N successive rotations starting from token t: each step must succeed and
feeds its freshly issued refresh token to the next.  Returns the N+1 token
values of the chain (t first) and the final state. -/
def rotateChain (st : AuthState) (t : RefreshTok) : Nat → Option (List RefreshTok × AuthState)
  | 0 => some ([t], st)
  | n + 1 =>
    match refresh_token st (some t) with
    | { outcome := .tokens pair, cookie := _, state := st1 } =>
        match rotateChain st1 pair.refresh_token n with
        | some (ts, st2) => some (t :: ts, st2)
        | none => none
    | _ => none

/-- True exactly on the outcomes that hand the client a new token pair. -/
def AuthOutcome.issuedTokens : AuthOutcome → Bool
  | .tokens _ => true
  | _ => false

/-- All jti draws recorded in the store lie below the counter: every stored
token was minted from an earlier draw of the randomness source. -/
def JtiFresh (st : AuthState) : Prop :=
  ∀ r ∈ st.refresh_tokens, r.token.payload.jti < st.ctr

/-- All family draws recorded in the store lie below the counter. -/
def FamFresh (st : AuthState) : Prop :=
  ∀ r ∈ st.refresh_tokens, r.family < st.ctr

/-- The stored token values are pairwise distinct (spec section 3: exactly one
record per issued token value). -/
def TokensNodup (st : AuthState) : Prop :=
  (st.refresh_tokens.map (fun r => r.token)).Nodup

/-- The Mongo _ids of the stored records are pairwise distinct. -/
def IdsNodup (st : AuthState) : Prop :=
  (st.refresh_tokens.map (fun r => r._id)).Nodup

/-- Well-formedness of a state reachable by the protocol: fresh draws and
unique token values / record ids. -/
def WFStore (st : AuthState) : Prop :=
  JtiFresh st ∧ TokensNodup st ∧ IdsNodup st

/-- Every record holding this token value is revoked. -/
def AllRevokedTok (l : List RefreshTokenRecord) (t : RefreshTok) : Prop :=
  ∀ r ∈ l, r.token = t → r.isRevoked = true

/-- Some record holds this token value. -/
def HasTok (l : List RefreshTokenRecord) (t : RefreshTok) : Prop :=
  ∃ r ∈ l, r.token = t

/-- The token is in the store and every record holding it is revoked: the
CONSUMED state of the spec's rotation state machine. -/
def Consumed (st : AuthState) (t : RefreshTok) : Prop :=
  HasTok st.refresh_tokens t ∧ AllRevokedTok st.refresh_tokens t

instance (st : AuthState) : Decidable (JtiFresh st) := by
  unfold JtiFresh; infer_instance

instance (st : AuthState) : Decidable (FamFresh st) := by
  unfold FamFresh; infer_instance

instance (st : AuthState) : Decidable (TokensNodup st) := by
  unfold TokensNodup; infer_instance

instance (st : AuthState) : Decidable (IdsNodup st) := by
  unfold IdsNodup; infer_instance

instance (st : AuthState) : Decidable (WFStore st) := by
  unfold WFStore; infer_instance

instance (l : List RefreshTokenRecord) (t : RefreshTok) : Decidable (AllRevokedTok l t) := by
  unfold AllRevokedTok; infer_instance

instance (l : List RefreshTokenRecord) (t : RefreshTok) : Decidable (HasTok l t) := by
  unfold HasTok; infer_instance

instance (st : AuthState) (t : RefreshTok) : Decidable (Consumed st t) := by
  unfold Consumed; infer_instance

/-- A concrete stored password hash for the fixtures below. -/
def adaHash : String := hash_password "Passw0rd!"

/-- A concrete active user document. -/
def exUser : UserDoc :=
  { _id := "u1", email := "ada@example.com", passwordHash := some adaHash,
    firstName := "Ada", lastName := "Lovelace", matricNumber := none,
    phone := none, currentLevel := none, admissionYear := none,
    department := "Industrial Engineering", role := some "student",
    bio := none, profilePictureUrl := none, skills := [],
    emailVerified := false, hasCompletedOnboarding := false,
    isActive := some true, createdAt := 0, updatedAt := 0, lastLogin := none }

/-- The same user, deactivated. -/
def exInactiveUser : UserDoc :=
  { exUser with isActive := some false }

/-- A concrete refresh token as minted by create_refresh_token at time 0 with
counter 3 (family 3, jti 4). -/
def exToken : RefreshTok :=
  (create_refresh_token 0 3 "u1" none).1

/-- The decoded claims of exToken. -/
def exPayload : RefreshPayload :=
  exToken.payload

/-- The store record of exToken, active (not yet consumed). -/
def exRecord : RefreshTokenRecord :=
  { _id := 5, token := exToken, userId := "u1", family := 3,
    expiresAt := 604800, isRevoked := false, createdAt := 0 }

/-- A concrete well-formed state: one active user holding one active refresh
token. -/
def exSt : AuthState :=
  { users := [exUser], refresh_tokens := [exRecord], ctr := 6, now := 0 }

/-- A state whose only user is deactivated. -/
def exStInactive : AuthState :=
  { users := [exInactiveUser], refresh_tokens := [], ctr := 0, now := 0 }

/-- A state with no users at all. -/
def exStEmpty : AuthState :=
  { users := [], refresh_tokens := [], ctr := 0, now := 0 }

/-- A concrete login request matching exUser's credentials. -/
def exLogin : LoginRequest :=
  { email := "ada@example.com", password := "Passw0rd!" }

/-- A concrete registration request that asks for the admin role (the request
schema accepts the value). -/
def exRegisterAdmin : RegisterRequest :=
  { email := "eve@example.com", password := "Passw0rd!", firstName := "Eve",
    lastName := "Adams", matricNumber := none, phone := none, level := none,
    admissionYear := none, role := some "admin" }

/-- A concrete change-password request matching exUser's current password. -/
def exChange : ChangePasswordRequest :=
  { currentPassword := "Passw0rd!", newPassword := "NewPassw0rd!" }

/-- The production environment with no JWT secrets configured. -/
def prodEnvNoSecrets : String → Option String :=
  fun k => if k = "ENVIRONMENT" then some "production" else none

/-- The password policy stated from the spec's words (section 6): minimum 8
characters, at least one uppercase, one lowercase, one digit, one symbol from
the defined punctuation set.  Used only to compare against the code's
validate_password_strength. -/
def StrongPassword (password : String) : Prop :=
  8 ≤ password.length ∧
  (∃ c ∈ password.toList, c.isUpper = true) ∧
  (∃ c ∈ password.toList, c.isLower = true) ∧
  (∃ c ∈ password.toList, c.isDigit = true) ∧
  (∃ c ∈ password.toList, c ∈ specialCharacters)

instance (password : String) : Decidable (StrongPassword password) := by
  unfold StrongPassword; infer_instance

/-- Some record holds this token value under this family. -/
def HasTokFam (l : List RefreshTokenRecord) (t : RefreshTok) (fam : Nat) : Prop :=
  ∃ r ∈ l, r.token = t ∧ r.family = fam

instance (l : List RefreshTokenRecord) (t : RefreshTok) (fam : Nat) :
    Decidable (HasTokFam l t fam) := by
  unfold HasTokFam; infer_instance

/-- All Mongo _ids recorded in the store lie below the counter. -/
def IdFresh (st : AuthState) : Prop :=
  ∀ r ∈ st.refresh_tokens, r._id < st.ctr

instance (st : AuthState) : Decidable (IdFresh st) := by
  unfold IdFresh; infer_instance

/-- The invariant carried along a sequential execution after a token has been
consumed: all stored jtis are fresh, the token's own jti is an old draw, and
every record holding the token is revoked. -/
def ConsumedInv (t : RefreshTok) (st : AuthState) : Prop :=
  JtiFresh st ∧ t.payload.jti < st.ctr ∧ Consumed st t

instance (t : RefreshTok) (st : AuthState) : Decidable (ConsumedInv t st) := by
  unfold ConsumedInv; infer_instance

/-- The token pair register issues on the empty state for exRegisterAdmin. -/
def exRegPair : TokenPair :=
  { access_token := create_access_token 0 "0" "eve@example.com" "student",
    refresh_token := (create_refresh_token 0 1 "0" none).1,
    token_type := "bearer", expires_in := ACCESS_TOKEN_EXPIRE_MINUTES * 60 }

/-- A well-formed refresh token that is absent from exSt's store. -/
def exUnknownTok : RefreshTok :=
  (create_refresh_token 0 20 "u1" none).1

/-- A token signed with the access secret whose class discriminator is not
"access". -/
def exWrongClassAccessTok : AccessTok :=
  { payload := { sub := "u1", email := "ada@example.com", role := "student",
                 type := "refresh", iat := 0, exp := 900 },
    key := SECRET_KEY }
/-- The user document the register handler inserts
(routers/auth.py lines 137-156), with the Mongo _id drawn from the counter. -/
def registeredUserDoc (st : AuthState) (d : RegisterRequest) : UserDoc :=
  { _id := toString st.ctr, email := d.email,
    passwordHash := some (hash_password d.password),
    firstName := d.firstName, lastName := d.lastName,
    matricNumber := d.matricNumber, phone := d.phone,
    currentLevel := d.level, admissionYear := d.admissionYear,
    department := "Industrial Engineering", role := some "student",
    bio := none, profilePictureUrl := none, skills := [],
    emailVerified := false, hasCompletedOnboarding := false,
    isActive := some true, createdAt := st.now, updatedAt := st.now,
    lastLogin := none }

/-- The refresh-token record the register handler inserts, spelled out. -/
def registeredRecord (st : AuthState) : RefreshTokenRecord :=
  { _id := st.ctr + 3,
    token :=
      { payload :=
          { sub := toString st.ctr, type := "refresh", family := st.ctr + 1,
            jti := st.ctr + 2, iat := st.now,
            exp := st.now + REFRESH_TOKEN_EXPIRE_DAYS * 86400 },
        key := REFRESH_SECRET_KEY },
    userId := toString st.ctr, family := st.ctr + 1,
    expiresAt := st.now + REFRESH_TOKEN_EXPIRE_DAYS * 86400,
    isRevoked := false, createdAt := st.now }

/-- The refresh-token record the login handler inserts for the user with this
id, spelled out. -/
def loginRecord (st : AuthState) (uid : String) : RefreshTokenRecord :=
  { _id := st.ctr + 2,
    token :=
      { payload :=
          { sub := uid, type := "refresh", family := st.ctr,
            jti := st.ctr + 1, iat := st.now,
            exp := st.now + REFRESH_TOKEN_EXPIRE_DAYS * 86400 },
        key := REFRESH_SECRET_KEY },
    userId := uid, family := st.ctr,
    expiresAt := st.now + REFRESH_TOKEN_EXPIRE_DAYS * 86400,
    isRevoked := false, createdAt := st.now }

/-- The refresh-token record a successful rotation inserts for the decoded
claims p, spelled out. -/
def rotatedRecord (st : AuthState) (p : RefreshPayload) : RefreshTokenRecord :=
  { _id := st.ctr + 1,
    token :=
      { payload :=
          { sub := p.sub, type := "refresh", family := p.family,
            jti := st.ctr, iat := st.now,
            exp := st.now + REFRESH_TOKEN_EXPIRE_DAYS * 86400 },
        key := REFRESH_SECRET_KEY },
    userId := p.sub, family := p.family,
    expiresAt := st.now + REFRESH_TOKEN_EXPIRE_DAYS * 86400,
    isRevoked := false, createdAt := st.now }

/-- The token pair login issues on exSt for exLogin (counter 6, clock 0). -/
def exLoginPair : TokenPair :=
  { access_token := create_access_token 0 "u1" "ada@example.com" "student",
    refresh_token := (create_refresh_token 0 6 "u1" none).1,
    token_type := "bearer", expires_in := ACCESS_TOKEN_EXPIRE_MINUTES * 60 }


/-! Helper lemmas about the store primitives. -/

theorem revokeFamily_mem_spec (l : List RefreshTokenRecord) (fam : Nat)
    (r : RefreshTokenRecord) (hr : r ∈ _revoke_token_family l fam) :
    ∃ s ∈ l, r = s ∨ r = { s with isRevoked := true } := by
  unfold _revoke_token_family at hr
  rcases List.mem_map.mp hr with ⟨s, hs, hmap⟩
  refine ⟨s, hs, ?_⟩
  by_cases h : s.family = fam
  · right; rw [← hmap]; simp [h]
  · left; rw [← hmap]; simp [h]

theorem revokeFamily_all_of_fam (l : List RefreshTokenRecord) (fam : Nat) :
    ∀ r ∈ _revoke_token_family l fam, r.family = fam → r.isRevoked = true := by
  intro r hr hfam
  unfold _revoke_token_family at hr
  rcases List.mem_map.mp hr with ⟨s, hs, hmap⟩
  by_cases h : s.family = fam
  · rw [← hmap]; simp [h]
  · rw [← hmap] at hfam; simp [h] at hfam

theorem revokeFamily_tokens (l : List RefreshTokenRecord) (fam : Nat) :
    (_revoke_token_family l fam).map (fun r => r.token) = l.map (fun r => r.token) := by
  induction l with
  | nil => rfl
  | cons r rs ih =>
    simp only [_revoke_token_family, List.map_cons] at ih ⊢
    by_cases h : r.family = fam <;> simp [h, ih]

theorem markById_mem_spec (l : List RefreshTokenRecord) (i : Nat)
    (r : RefreshTokenRecord) (hr : r ∈ markRevokedById l i) :
    ∃ s ∈ l, r = s ∨ r = { s with isRevoked := true } := by
  induction l with
  | nil => simp [markRevokedById] at hr
  | cons s rs ih =>
    simp only [markRevokedById] at hr
    by_cases h : s._id = i
    · rw [if_pos h] at hr
      rcases List.mem_cons.mp hr with h1 | h2
      · exact ⟨s, List.mem_cons_self s rs, Or.inr h1⟩
      · exact ⟨r, List.mem_cons_of_mem s h2, Or.inl rfl⟩
    · rw [if_neg h] at hr
      rcases List.mem_cons.mp hr with h1 | h2
      · exact ⟨s, List.mem_cons_self s rs, Or.inl h1⟩
      · rcases ih h2 with ⟨s', hs', hor⟩
        exact ⟨s', List.mem_cons_of_mem s hs', hor⟩

theorem markById_tokens (l : List RefreshTokenRecord) (i : Nat) :
    (markRevokedById l i).map (fun r => r.token) = l.map (fun r => r.token) := by
  induction l with
  | nil => rfl
  | cons r rs ih =>
    simp only [markRevokedById]
    by_cases h : r._id = i <;> simp [h, ih]

theorem allRevoked_revokeFamily (l : List RefreshTokenRecord) (t : RefreshTok) (fam : Nat)
    (h : AllRevokedTok l t) : AllRevokedTok (_revoke_token_family l fam) t := by
  intro r hr htok
  rcases revokeFamily_mem_spec l fam r hr with ⟨s, hs, heq | heq⟩
  · rw [heq] at htok ⊢; exact h s hs htok
  · rw [heq]

theorem allRevoked_markById (l : List RefreshTokenRecord) (t : RefreshTok) (i : Nat)
    (h : AllRevokedTok l t) : AllRevokedTok (markRevokedById l i) t := by
  intro r hr htok
  rcases markById_mem_spec l i r hr with ⟨s, hs, heq | heq⟩
  · rw [heq] at htok ⊢; exact h s hs htok
  · rw [heq]

theorem allRevoked_append (l : List RefreshTokenRecord) (t : RefreshTok)
    (r : RefreshTokenRecord) (h : AllRevokedTok l t) (hne : r.token ≠ t) :
    AllRevokedTok (l ++ [r]) t := by
  intro s hs htok
  rcases List.mem_append.mp hs with h1 | h2
  · exact h s h1 htok
  · simp at h2; subst h2; exact absurd htok hne

theorem hasTok_iff_mem_map (l : List RefreshTokenRecord) (t : RefreshTok) :
    HasTok l t ↔ t ∈ l.map (fun r => r.token) := by
  unfold HasTok; simp [List.mem_map]

theorem hasTok_revokeFamily (l : List RefreshTokenRecord) (t : RefreshTok) (fam : Nat)
    (h : HasTok l t) : HasTok (_revoke_token_family l fam) t := by
  rw [hasTok_iff_mem_map, revokeFamily_tokens]
  exact (hasTok_iff_mem_map l t).mp h

theorem hasTok_markById (l : List RefreshTokenRecord) (t : RefreshTok) (i : Nat)
    (h : HasTok l t) : HasTok (markRevokedById l i) t := by
  rw [hasTok_iff_mem_map, markById_tokens]
  exact (hasTok_iff_mem_map l t).mp h

theorem hasTok_append (l : List RefreshTokenRecord) (t : RefreshTok) (r : RefreshTokenRecord)
    (h : HasTok l t) : HasTok (l ++ [r]) t := by
  rcases h with ⟨s, hs, hst⟩
  exact ⟨s, List.mem_append_left _ hs, hst⟩

theorem tok_ne_of_jti_lt (a b : RefreshTok) (h : a.payload.jti < b.payload.jti) : b ≠ a := by
  intro he; rw [he] at h; exact Nat.lt_irrefl _ h

theorem findTokenRecord_exists (l : List RefreshTokenRecord) (t : RefreshTok)
    (h : HasTok l t) : ∃ r, findTokenRecord l t = some r ∧ r.token = t ∧ r ∈ l := by
  have hsome : (l.find? (fun r => r.token = t)).isSome := by
    rw [List.find?_isSome]
    rcases h with ⟨r, hr, ht⟩
    exact ⟨r, hr, by simp [ht]⟩
  rcases Option.isSome_iff_exists.mp hsome with ⟨s, hs⟩
  exact ⟨s, hs, by simpa using List.find?_some hs, List.mem_of_find?_eq_some hs⟩

theorem findTokenRecord_of_mem (l : List RefreshTokenRecord) (r : RefreshTokenRecord)
    (hnodup : (l.map (fun x => x.token)).Nodup) (hmem : r ∈ l) :
    findTokenRecord l r.token = some r := by
  rcases findTokenRecord_exists l r.token ⟨r, hmem, rfl⟩ with ⟨s, hs, hst, hsmem⟩
  have : s = r := List.inj_on_of_nodup_map hnodup hsmem hmem hst
  rw [hs, this]

theorem allRevoked_after_mark (l : List RefreshTokenRecord) (stored : RefreshTokenRecord)
    (hnodupTok : (l.map (fun r => r.token)).Nodup)
    (hnodupId : (l.map (fun r => r._id)).Nodup)
    (hmem : stored ∈ l) :
    AllRevokedTok (markRevokedById l stored._id) stored.token := by
  induction l with
  | nil => simp at hmem
  | cons r rs ih =>
    simp only [List.map_cons, List.nodup_cons] at hnodupTok hnodupId
    simp only [markRevokedById]
    by_cases h : r._id = stored._id
    · have hr : r = stored := by
        rcases List.mem_cons.mp hmem with h1 | h2
        · exact h1.symm
        · exfalso
          exact hnodupId.1 (h ▸ List.mem_map.mpr ⟨stored, h2, rfl⟩)
      subst hr
      simp only [if_pos h]
      intro x hx htok
      rcases List.mem_cons.mp hx with h1 | h2
      · subst h1; rfl
      · exact absurd (List.mem_map.mpr ⟨x, h2, htok⟩) hnodupTok.1
    · have hrne : r ≠ stored := fun he => h (he ▸ rfl)
      have hmem' : stored ∈ rs := by
        rcases List.mem_cons.mp hmem with h1 | h2
        · exact absurd h1.symm hrne
        · exact h2
      simp only [if_neg h]
      intro x hx htok
      rcases List.mem_cons.mp hx with h1 | h2
      · subst h1
        exact absurd (htok ▸ List.mem_map.mpr ⟨stored, hmem', rfl⟩) hnodupTok.1
      · exact ih hnodupTok.2 hnodupId.2 hmem' x h2 htok

theorem setUserPassword_mem (l : List UserDoc) (uid h : String) (now : Nat) (u : UserDoc)
    (hfind : findUserById l uid = some u) :
    { u with passwordHash := some (hash_password h), updatedAt := now } ∈
      setUserPassword l uid (hash_password h) now := by
  unfold findUserById at hfind
  induction l with
  | nil => simp at hfind
  | cons v vs ih =>
    by_cases hv : v._id = uid
    · rw [List.find?_cons_of_pos _ (by simp [hv])] at hfind
      have : v = u := by simpa using hfind
      subst this
      simp [setUserPassword, hv]
    · rw [List.find?_cons_of_neg _ (by simp [hv])] at hfind
      simpa [setUserPassword, hv] using List.mem_cons_of_mem _ (ih hfind)

/-! Shape of the state after each operation, with the freshness facts about
whatever got inserted. -/

theorem change_password_state (st : AuthState) (uid : String) (d : ChangePasswordRequest) :
    ∃ users2, (change_password st uid d).state = { st with users := users2 } := by
  cases hfind : findUserById st.users uid with
  | none => exact ⟨st.users, by simp [change_password, hfind]⟩
  | some u =>
    cases hph : u.passwordHash with
    | none => exact ⟨st.users, by simp [change_password, hfind, hph]⟩
    | some h =>
      by_cases hv : verify_password d.currentPassword h
      · cases hval : validate_password_strength d.newPassword with
        | mk b msg =>
          cases b with
          | false =>
            exact ⟨st.users, by simp [change_password, hfind, hph, hv, hval]⟩
          | true =>
            exact ⟨setUserPassword st.users uid (hash_password d.newPassword) st.now,
              by simp [change_password, hfind, hph, hv, hval]⟩
      · rw [Bool.not_eq_true] at hv
        exact ⟨st.users, by simp [change_password, hfind, hph, hv]⟩

theorem logout_state_cases (st : AuthState) (tokOpt : Option RefreshTok) :
    (logout st tokOpt).state = st ∨
    ∃ fam, (logout st tokOpt).state =
      { st with refresh_tokens := _revoke_token_family st.refresh_tokens fam } := by
  cases tokOpt with
  | none => exact Or.inl rfl
  | some tok =>
    cases hdec : decode_refresh_token st.now tok with
    | error e => exact Or.inl (by simp [logout, hdec])
    | ok p => exact Or.inr ⟨p.family, by simp [logout, hdec]⟩

theorem register_state_cases (st : AuthState) (d : RegisterRequest) :
    (register st d).state = st ∨
    ∃ users2 rec, rec.token.payload.jti = st.ctr + 2 ∧ rec.isRevoked = false ∧
      (register st d).state =
        { st with
          users := users2, refresh_tokens := st.refresh_tokens ++ [rec],
          ctr := st.ctr + 4 } := by
  cases hval : validate_password_strength d.password with
  | mk b msg =>
    cases b with
    | false => exact Or.inl (by simp [register, hval])
    | true =>
      cases hfind : findUserByEmail st.users d.email with
      | some u => exact Or.inl (by simp [register, hval, hfind])
      | none =>
        refine Or.inr ⟨st.users ++ [registeredUserDoc st d], registeredRecord st,
          rfl, rfl, ?_⟩
        simp [register, hval, hfind, create_refresh_token, _store_refresh_token,
          registeredUserDoc, registeredRecord]

theorem login_state_cases (st : AuthState) (d : LoginRequest) :
    (login st d).state = st ∨
    ∃ users2 rec, rec.token.payload.jti = st.ctr + 1 ∧ rec.isRevoked = false ∧
      (login st d).state =
        { st with
          users := users2, refresh_tokens := st.refresh_tokens ++ [rec],
          ctr := st.ctr + 3 } := by
  cases hfind : findUserByEmail st.users d.email with
  | none => exact Or.inl (by simp [login, hfind])
  | some u =>
    cases hph : u.passwordHash with
    | none => exact Or.inl (by simp [login, hfind, hph])
    | some h =>
      by_cases ha : u.isActive.getD true
      · by_cases hv : verify_password d.password h
        · refine Or.inr ⟨setLastLogin st.users u._id st.now, loginRecord st u._id,
            rfl, rfl, ?_⟩
          simp [login, hfind, hph, ha, hv, check_needs_rehash,
            create_refresh_token, _store_refresh_token, loginRecord]
        · rw [Bool.not_eq_true] at hv
          exact Or.inl (by simp [login, hfind, hph, ha, hv])
      · rw [Bool.not_eq_true] at ha
        exact Or.inl (by simp [login, hfind, hph, ha])

theorem refresh_state_cases (st : AuthState) (tokOpt : Option RefreshTok) :
    (refresh_token st tokOpt).state = st ∨
    (∃ fam, (refresh_token st tokOpt).state =
      { st with refresh_tokens := _revoke_token_family st.refresh_tokens fam }) ∨
    (∃ i, (refresh_token st tokOpt).state =
      { st with refresh_tokens := markRevokedById st.refresh_tokens i }) ∨
    (∃ i rec, rec.token.payload.jti = st.ctr ∧ rec.isRevoked = false ∧
      (refresh_token st tokOpt).state =
        { st with
          refresh_tokens := markRevokedById st.refresh_tokens i ++ [rec],
          ctr := st.ctr + 2 }) := by
  cases tokOpt with
  | none => exact Or.inl rfl
  | some tok =>
    cases hdec : decode_refresh_token st.now tok with
    | error e => exact Or.inl (by simp [refresh_token, hdec])
    | ok p =>
      cases hfind : findTokenRecord st.refresh_tokens tok with
      | none => exact Or.inr (Or.inl ⟨p.family, by simp [refresh_token, hdec, hfind]⟩)
      | some stored =>
        by_cases hrev : stored.isRevoked
        · exact Or.inr (Or.inl ⟨p.family,
            by simp [refresh_token, hdec, hfind, refreshConsume, hrev]⟩)
        · rw [Bool.not_eq_true] at hrev
          cases huser : findUserById st.users p.sub with
          | none =>
            exact Or.inr (Or.inr (Or.inl ⟨stored._id,
              by simp [refresh_token, hdec, hfind, refreshConsume, hrev, huser]⟩))
          | some user =>
            refine Or.inr (Or.inr (Or.inr ⟨stored._id, rotatedRecord st p,
              rfl, rfl, ?_⟩))
            simp [refresh_token, hdec, hfind, refreshConsume, hrev, huser,
              create_refresh_token, _store_refresh_token, rotatedRecord]

/-! Preservation of the consumed-token invariant along sequential executions. -/

theorem applyOp_now (st : AuthState) (op : Op) : (applyOp st op).now = st.now := by
  cases op with
  | opRegister d =>
    rcases register_state_cases st d with h | ⟨u2, rec, _, _, h⟩ <;> simp [applyOp, h]
  | opLogin d =>
    rcases login_state_cases st d with h | ⟨u2, rec, _, _, h⟩ <;> simp [applyOp, h]
  | opRefresh tk =>
    rcases refresh_state_cases st tk with h | ⟨fam, h⟩ | ⟨i, h⟩ | ⟨i, rec, _, _, h⟩ <;>
      simp [applyOp, h]
  | opLogout tk =>
    rcases logout_state_cases st tk with h | ⟨fam, h⟩ <;> simp [applyOp, h]
  | opChangePassword uid d =>
    rcases change_password_state st uid d with ⟨u2, h⟩; simp [applyOp, h]

theorem applyOps_now (st : AuthState) (ops : List Op) :
    (applyOps st ops).now = st.now := by
  induction ops generalizing st with
  | nil => rfl
  | cons op ops ih =>
    show (applyOps (applyOp st op) ops).now = st.now
    rw [ih, applyOp_now]

theorem consumedInv_users (t : RefreshTok) (st : AuthState) (u2 : List UserDoc)
    (h : ConsumedInv t st) : ConsumedInv t { st with users := u2 } := h

theorem consumedInv_revokeFam (t : RefreshTok) (st : AuthState) (fam : Nat)
    (h : ConsumedInv t st) :
    ConsumedInv t { st with refresh_tokens := _revoke_token_family st.refresh_tokens fam } := by
  obtain ⟨hf, hj, hhas, hall⟩ := h
  refine ⟨?_, hj, hasTok_revokeFamily _ _ _ hhas, allRevoked_revokeFamily _ _ _ hall⟩
  intro r hr
  rcases revokeFamily_mem_spec _ _ r hr with ⟨s, hs, heq | heq⟩ <;> rw [heq] <;> exact hf s hs

theorem consumedInv_mark (t : RefreshTok) (st : AuthState) (i : Nat)
    (h : ConsumedInv t st) :
    ConsumedInv t { st with refresh_tokens := markRevokedById st.refresh_tokens i } := by
  obtain ⟨hf, hj, hhas, hall⟩ := h
  refine ⟨?_, hj, hasTok_markById _ _ _ hhas, allRevoked_markById _ _ _ hall⟩
  intro r hr
  rcases markById_mem_spec _ _ r hr with ⟨s, hs, heq | heq⟩ <;> rw [heq] <;> exact hf s hs

theorem consumedInv_insert (t : RefreshTok) (st : AuthState) (u2 : List UserDoc)
    (rec : RefreshTokenRecord) (k : Nat)
    (hlo : st.ctr ≤ rec.token.payload.jti) (hhi : rec.token.payload.jti < st.ctr + k)
    (h : ConsumedInv t st) :
    ConsumedInv t { st with
      users := u2, refresh_tokens := st.refresh_tokens ++ [rec], ctr := st.ctr + k } := by
  obtain ⟨hf, hj, hhas, hall⟩ := h
  have hne : rec.token ≠ t := by
    intro he
    rw [he] at hlo
    omega
  refine ⟨?_, by show t.payload.jti < st.ctr + k; omega,
    hasTok_append _ _ _ hhas, allRevoked_append _ _ _ hall hne⟩
  intro r hr
  rcases List.mem_append.mp hr with h1 | h2
  · have := hf r h1
    show r.token.payload.jti < st.ctr + k
    omega
  · simp at h2
    subst h2
    exact hhi

theorem consumedInv_applyOp (t : RefreshTok) (st : AuthState) (op : Op)
    (h : ConsumedInv t st) : ConsumedInv t (applyOp st op) := by
  cases op with
  | opRegister d =>
    rcases register_state_cases st d with hs | ⟨u2, rec, hj, _, hs⟩
    · show ConsumedInv t (register st d).state
      rw [hs]; exact h
    · show ConsumedInv t (register st d).state
      rw [hs]
      exact consumedInv_insert t st u2 rec 4 (by omega) (by omega) h
  | opLogin d =>
    rcases login_state_cases st d with hs | ⟨u2, rec, hj, _, hs⟩
    · show ConsumedInv t (login st d).state
      rw [hs]; exact h
    · show ConsumedInv t (login st d).state
      rw [hs]
      exact consumedInv_insert t st u2 rec 3 (by omega) (by omega) h
  | opRefresh tk =>
    rcases refresh_state_cases st tk with hs | ⟨fam, hs⟩ | ⟨i, hs⟩ | ⟨i, rec, hj, _, hs⟩
    · show ConsumedInv t (refresh_token st tk).state
      rw [hs]; exact h
    · show ConsumedInv t (refresh_token st tk).state
      rw [hs]; exact consumedInv_revokeFam t st fam h
    · show ConsumedInv t (refresh_token st tk).state
      rw [hs]; exact consumedInv_mark t st i h
    · show ConsumedInv t (refresh_token st tk).state
      rw [hs]
      exact consumedInv_insert t
        { st with refresh_tokens := markRevokedById st.refresh_tokens i }
        st.users rec 2 (by show st.ctr ≤ rec.token.payload.jti; omega)
        (by show rec.token.payload.jti < st.ctr + 2; omega)
        (consumedInv_mark t st i h)
  | opLogout tk =>
    rcases logout_state_cases st tk with hs | ⟨fam, hs⟩
    · show ConsumedInv t (logout st tk).state
      rw [hs]; exact h
    · show ConsumedInv t (logout st tk).state
      rw [hs]; exact consumedInv_revokeFam t st fam h
  | opChangePassword uid d =>
    rcases change_password_state st uid d with ⟨u2, hs⟩
    show ConsumedInv t (change_password st uid d).state
    rw [hs]; exact h

theorem consumedInv_applyOps (t : RefreshTok) (st : AuthState) (ops : List Op)
    (h : ConsumedInv t st) : ConsumedInv t (applyOps st ops) := by
  induction ops generalizing st with
  | nil => exact h
  | cons op ops ih => exact ih _ (consumedInv_applyOp t st op h)

/-! Characterization of a successful rotation, and the main single-use claim. -/

theorem refresh_success_spec (st : AuthState) (tok : RefreshTok)
    (hsucc : (refresh_token st (some tok)).outcome.issuedTokens = true) :
    ∃ payload stored user,
      decode_refresh_token st.now tok = .ok payload ∧
      findTokenRecord st.refresh_tokens tok = some stored ∧
      stored.isRevoked = false ∧
      findUserById st.users payload.sub = some user ∧
      (refresh_token st (some tok)).state =
        { st with
          refresh_tokens := markRevokedById st.refresh_tokens stored._id ++
            [rotatedRecord st payload],
          ctr := st.ctr + 2 } ∧
      (refresh_token st (some tok)).outcome = .tokens
        { access_token := create_access_token st.now payload.sub user.email
            (user.role.getD "student"),
          refresh_token := (rotatedRecord st payload).token,
          token_type := "bearer", expires_in := ACCESS_TOKEN_EXPIRE_MINUTES * 60 } := by
  cases hdec : decode_refresh_token st.now tok with
  | error e => simp [refresh_token, hdec, AuthOutcome.issuedTokens] at hsucc
  | ok p =>
    cases hfind : findTokenRecord st.refresh_tokens tok with
    | none => simp [refresh_token, hdec, hfind, AuthOutcome.issuedTokens] at hsucc
    | some stored =>
      by_cases hrev : stored.isRevoked
      · simp [refresh_token, hdec, hfind, refreshConsume, hrev,
          AuthOutcome.issuedTokens] at hsucc
      · rw [Bool.not_eq_true] at hrev
        cases huser : findUserById st.users p.sub with
        | none =>
          simp [refresh_token, hdec, hfind, refreshConsume, hrev, huser,
            AuthOutcome.issuedTokens] at hsucc
        | some user =>
          refine ⟨p, stored, user, rfl, rfl, hrev, huser, ?_, ?_⟩ <;>
            simp [refresh_token, hdec, hfind, refreshConsume, hrev, huser,
              create_refresh_token, _store_refresh_token, rotatedRecord]

theorem refresh_success_consumedInv (st : AuthState) (tok : RefreshTok)
    (hwf : WFStore st)
    (hsucc : (refresh_token st (some tok)).outcome.issuedTokens = true) :
    ConsumedInv tok (refresh_token st (some tok)).state := by
  obtain ⟨hfresh, hnodup, hids⟩ := hwf
  rcases refresh_success_spec st tok hsucc with
    ⟨p, stored, user, hdec, hfind, hrev, huser, hstate, houtcome⟩
  have hfind' : st.refresh_tokens.find? (fun r => r.token = tok) = some stored := hfind
  have hstmem : stored ∈ st.refresh_tokens := List.mem_of_find?_eq_some hfind'
  have hsttok : stored.token = tok := by simpa using List.find?_some hfind'
  have hjti : tok.payload.jti < st.ctr := by
    have := hfresh stored hstmem
    rw [hsttok] at this
    exact this
  rw [hstate]
  have hne : (rotatedRecord st p).token ≠ tok := by
    intro he
    have : (rotatedRecord st p).token.payload.jti = tok.payload.jti := by rw [he]
    simp [rotatedRecord] at this
    omega
  refine ⟨?_, by show tok.payload.jti < st.ctr + 2; omega, ?_, ?_⟩
  · intro r hr
    show r.token.payload.jti < st.ctr + 2
    rcases List.mem_append.mp hr with h1 | h2
    · rcases markById_mem_spec _ _ r h1 with ⟨s, hs, heq | heq⟩
      · rw [heq]
        have := hfresh s hs
        omega
      · rw [heq]
        show s.token.payload.jti < st.ctr + 2
        have := hfresh s hs
        omega
    · simp at h2
      subst h2
      show (rotatedRecord st p).token.payload.jti < st.ctr + 2
      simp [rotatedRecord]
  · exact hasTok_append _ _ _ (hasTok_markById _ _ _ ⟨stored, hstmem, hsttok⟩)
  · refine allRevoked_append _ _ _ ?_ hne
    rw [← hsttok]
    exact allRevoked_after_mark st.refresh_tokens stored hnodup hids hstmem

theorem refresh_reuse_of_consumed (st : AuthState) (tok : RefreshTok) (p : RefreshPayload)
    (hdec : decode_refresh_token st.now tok = .ok p)
    (hcons : Consumed st tok) :
    (refresh_token st (some tok)).outcome =
      .failure
        { status := 401,
          detail := "Refresh token reuse detected. All sessions revoked for security." } := by
  rcases hcons with ⟨hhas, hall⟩
  rcases findTokenRecord_exists st.refresh_tokens tok hhas with ⟨r, hfind, htok, hmem⟩
  have hrev : r.isRevoked = true := hall r hmem htok
  simp [refresh_token, hdec, hfind, refreshConsume, hrev]

/-- C1: a refresh token can be rotated at most once in a sequential execution.
If refresh succeeds on token t from a well-formed state, the successor state
has every store record holding t marked isRevoked = true, and after any
further sequence of register / login / refresh / logout / change-password
operations, refresh(t) fails with the token-reuse 401 (TokenReuseDetected)
and never issues a second pair for t. -/
theorem refresh_single_use (st : AuthState) (t : RefreshTok)
    (hwf : WFStore st)
    (hsucc : (refresh_token st (some t)).outcome.issuedTokens = true)
    (ops : List Op) :
    (∀ r ∈ (refresh_token st (some t)).state.refresh_tokens,
      r.token = t → r.isRevoked = true) ∧
    (refresh_token (applyOps (refresh_token st (some t)).state ops) (some t)).outcome =
      .failure
        { status := 401,
          detail := "Refresh token reuse detected. All sessions revoked for security." } := by
  have hinv := refresh_success_consumedInv st t hwf hsucc
  rcases refresh_success_spec st t hsucc with
    ⟨p, stored, user, hdec, hfind, hrev, huser, hstate, houtcome⟩
  refine ⟨hinv.2.2.2, ?_⟩
  have hinv2 := consumedInv_applyOps t (refresh_token st (some t)).state ops hinv
  have hnow : (applyOps (refresh_token st (some t)).state ops).now = st.now := by
    rw [applyOps_now, hstate]
  refine refresh_reuse_of_consumed _ t p ?_ hinv2.2.2
  rw [hnow]
  exact hdec

/-- Witness for C1 at a concrete state: one user holding one active token,
whose refresh succeeds; after an interposed login, refreshing the same token
fails with the reuse-detected 401. -/
theorem refresh_single_use_witness :
    WFStore exSt ∧
    (refresh_token exSt (some exToken)).outcome.issuedTokens = true ∧
    ((∀ r ∈ (refresh_token exSt (some exToken)).state.refresh_tokens,
        r.token = exToken → r.isRevoked = true) ∧
      (refresh_token
        (applyOps (refresh_token exSt (some exToken)).state [Op.opLogin exLogin])
        (some exToken)).outcome =
        .failure
          { status := 401,
            detail := "Refresh token reuse detected. All sessions revoked for security." }) :=
  ⟨by decide, by decide,
    refresh_single_use exSt exToken (by decide) (by decide) [Op.opLogin exLogin]⟩

/-- C2 (the code is not the required atomic conditional update): the revoke
step of refresh is find_one followed by an unconditional update_one by _id.
Interleaving two refresh calls on the same still-active token so that both
find_one reads happen before either write (both obtain exRecord with
isRevoked = false) makes both calls rotate successfully: the second consume,
run on the state the first produced, still issues a token pair instead of
taking the theft-detected branch. -/
theorem refresh_race_both_rotate :
    decode_refresh_token exSt.now exToken = .ok exPayload ∧
    findTokenRecord exSt.refresh_tokens exToken = some exRecord ∧
    exRecord.isRevoked = false ∧
    (refreshConsume exSt exPayload exRecord).outcome.issuedTokens = true ∧
    (refreshConsume (refreshConsume exSt exPayload exRecord).state
        exPayload exRecord).outcome.issuedTokens = true :=
  ⟨rfl, by decide, by decide, by decide, by decide⟩

/-- C3: when the presented token decodes but is absent from the store or found
already revoked, refresh revokes the whole family carried in the decoded
claims, clears the cookie, answers one of the two theft-detection 401s
(the spec's TokenReuseDetected class), and never issues a pair. -/
theorem refresh_theft_branches (st : AuthState) (tok : RefreshTok)
    (payload : RefreshPayload)
    (hdec : decode_refresh_token st.now tok = .ok payload)
    (hbr : findTokenRecord st.refresh_tokens tok = none ∨
      ∃ r, findTokenRecord st.refresh_tokens tok = some r ∧ r.isRevoked = true) :
    ((refresh_token st (some tok)).outcome =
      .failure
        { status := 401,
          detail := "Refresh token not recognized. All sessions revoked for security." } ∨
     (refresh_token st (some tok)).outcome =
      .failure
        { status := 401,
          detail := "Refresh token reuse detected. All sessions revoked for security." }) ∧
    (refresh_token st (some tok)).cookie = .clearCookie ∧
    (refresh_token st (some tok)).state.refresh_tokens =
      _revoke_token_family st.refresh_tokens payload.family ∧
    (∀ r ∈ (refresh_token st (some tok)).state.refresh_tokens,
      r.family = payload.family → r.isRevoked = true) ∧
    (refresh_token st (some tok)).outcome.issuedTokens = false := by
  rcases hbr with hfind | ⟨r, hfind, hrev⟩
  · refine ⟨Or.inl (by simp [refresh_token, hdec, hfind]),
      by simp [refresh_token, hdec, hfind],
      by simp [refresh_token, hdec, hfind], ?_,
      by simp [refresh_token, hdec, hfind, AuthOutcome.issuedTokens]⟩
    intro r2 hr2
    have hst : (refresh_token st (some tok)).state.refresh_tokens =
        _revoke_token_family st.refresh_tokens payload.family := by
      simp [refresh_token, hdec, hfind]
    rw [hst] at hr2
    exact revokeFamily_all_of_fam _ _ r2 hr2
  · refine ⟨Or.inr (by simp [refresh_token, hdec, hfind, refreshConsume, hrev]),
      by simp [refresh_token, hdec, hfind, refreshConsume, hrev],
      by simp [refresh_token, hdec, hfind, refreshConsume, hrev], ?_,
      by simp [refresh_token, hdec, hfind, refreshConsume, hrev,
        AuthOutcome.issuedTokens]⟩
    intro r2 hr2
    have hst : (refresh_token st (some tok)).state.refresh_tokens =
        _revoke_token_family st.refresh_tokens payload.family := by
      simp [refresh_token, hdec, hfind, refreshConsume, hrev]
    rw [hst] at hr2
    exact revokeFamily_all_of_fam _ _ r2 hr2

/-- Witness for C3: a signature-valid token unknown to exSt's store hits the
not-recognized theft branch. -/
theorem refresh_theft_branches_witness :
    decode_refresh_token exSt.now exUnknownTok = .ok exUnknownTok.payload ∧
    findTokenRecord exSt.refresh_tokens exUnknownTok = none ∧
    (((refresh_token exSt (some exUnknownTok)).outcome =
      .failure
        { status := 401,
          detail := "Refresh token not recognized. All sessions revoked for security." } ∨
      (refresh_token exSt (some exUnknownTok)).outcome =
      .failure
        { status := 401,
          detail := "Refresh token reuse detected. All sessions revoked for security." }) ∧
     (refresh_token exSt (some exUnknownTok)).cookie = .clearCookie ∧
     (refresh_token exSt (some exUnknownTok)).state.refresh_tokens =
       _revoke_token_family exSt.refresh_tokens exUnknownTok.payload.family ∧
     (∀ r ∈ (refresh_token exSt (some exUnknownTok)).state.refresh_tokens,
       r.family = exUnknownTok.payload.family → r.isRevoked = true) ∧
     (refresh_token exSt (some exUnknownTok)).outcome.issuedTokens = false) :=
  ⟨rfl, by decide,
    refresh_theft_branches exSt exUnknownTok exUnknownTok.payload rfl
      (Or.inl (by decide))⟩

/-- C4 counterexample: a deactivated account is answered 403 with its own
message, while a missing account is answered 401 "Invalid email or password";
the two runs are distinguishable, refuting uniformity across all three
failure causes. -/
theorem login_inactive_distinguishable :
    login exStInactive exLogin =
      { outcome := .failure
          { status := 403, detail := "Account is deactivated. Contact admin." },
        cookie := .noChange, state := exStInactive } ∧
    login exStEmpty exLogin =
      { outcome := .failure { status := 401, detail := "Invalid email or password" },
        cookie := .noChange, state := exStEmpty } ∧
    ((403 : Nat), "Account is deactivated. Contact admin.") ≠
      ((401 : Nat), "Invalid email or password") := by
  decide

/-- C4 (amended): login is uniform — identical status, detail, cookie effect
and state — between the email-not-found branch (including an account with no
stored hash) and the password-mismatch branch for an active account; the
deactivated-account branch is answered by a distinguishable 403 instead. -/
theorem login_uniform_401 (st : AuthState) (data : LoginRequest)
    (hcause :
      findUserByEmail st.users data.email = none ∨
      (∃ u, findUserByEmail st.users data.email = some u ∧ u.passwordHash = none) ∨
      (∃ u h, findUserByEmail st.users data.email = some u ∧ u.passwordHash = some h ∧
        u.isActive.getD true = true ∧ verify_password data.password h = false)) :
    login st data =
      { outcome := .failure { status := 401, detail := "Invalid email or password" },
        cookie := .noChange, state := st } := by
  rcases hcause with hf | ⟨u, hf, hph⟩ | ⟨u, h, hf, hph, ha, hv⟩
  · simp [login, hf]
  · simp [login, hf, hph]
  · simp [login, hf, hph, ha, hv]

/-- Witness for the amended C4 on the no-such-email cause. -/
theorem login_uniform_401_witness :
    findUserByEmail exStEmpty.users exLogin.email = none ∧
    login exStEmpty exLogin =
      { outcome := .failure { status := 401, detail := "Invalid email or password" },
        cookie := .noChange, state := exStEmpty } :=
  ⟨by decide, login_uniform_401 exStEmpty exLogin (Or.inl (by decide))⟩

/-- C5 (refuted by the code): with ENVIRONMENT = production and neither JWT
secret configured, module initialization does not fail — it silently adopts
whatever ephemeral values the randomness source generated as the signing
secrets.  There is no hard-fail path. -/
theorem secret_fallback_no_hard_fail :
    prodEnvNoSecrets "ENVIRONMENT" = some "production" ∧
    prodEnvNoSecrets "JWT_SECRET_KEY" = none ∧
    prodEnvNoSecrets "JWT_REFRESH_SECRET_KEY" = none ∧
    ∀ generated generated2 : String,
      initSECRET_KEY prodEnvNoSecrets generated = generated ∧
      initREFRESH_SECRET_KEY prodEnvNoSecrets generated2 = generated2 :=
  ⟨rfl, rfl, rfl, fun _ _ => ⟨rfl, rfl⟩⟩

/-- C7: decoding an access token right after encoding returns the encoded
subject, email and role with class discriminator "access"; decoding once the
expiry has passed fails with the expired-signature error; and a token whose
class discriminator is not "access" (valid signature, not expired) is
rejected with the invalid-type error. -/
theorem access_token_roundtrip (user_id email role : String) (now later : Nat)
    (t : AccessTok)
    (hlater : now + ACCESS_TOKEN_EXPIRE_MINUTES * 60 ≤ later)
    (hkey : t.key = SECRET_KEY) (hexp : now < t.payload.exp)
    (htype : t.payload.type ≠ "access") :
    decode_access_token now (create_access_token now user_id email role) =
      .ok { sub := user_id, email := email, role := role, type := "access",
            iat := now, exp := now + ACCESS_TOKEN_EXPIRE_MINUTES * 60 } ∧
    decode_access_token later (create_access_token now user_id email role) =
      .error .expiredSignature ∧
    decode_access_token now t = .error .invalidType := by
  refine ⟨?_, ?_, ?_⟩
  · have h1 : ¬ (now + ACCESS_TOKEN_EXPIRE_MINUTES * 60 ≤ now) := by
      simp only [ACCESS_TOKEN_EXPIRE_MINUTES]
      omega
    simp [decode_access_token, create_access_token, h1]
  · simp [decode_access_token, create_access_token, hlater]
  · have h2 : ¬ (t.payload.exp ≤ now) := by omega
    simp [decode_access_token, hkey, h2, htype]

/-- Witness for C7 at concrete values: encode/decode at time 0, decode again
at 900 seconds, and reject a "refresh"-class token signed with the access
secret. -/
theorem access_token_roundtrip_witness :
    (0 + ACCESS_TOKEN_EXPIRE_MINUTES * 60 ≤ 900 ∧
      exWrongClassAccessTok.key = SECRET_KEY ∧
      0 < exWrongClassAccessTok.payload.exp ∧
      exWrongClassAccessTok.payload.type ≠ "access") ∧
    (decode_access_token 0 (create_access_token 0 "u1" "ada@example.com" "student") =
      .ok { sub := "u1", email := "ada@example.com", role := "student",
            type := "access", iat := 0, exp := 0 + ACCESS_TOKEN_EXPIRE_MINUTES * 60 } ∧
     decode_access_token 900 (create_access_token 0 "u1" "ada@example.com" "student") =
      .error .expiredSignature ∧
     decode_access_token 0 exWrongClassAccessTok = .error .invalidType) :=
  ⟨⟨by decide, by decide, by decide, by decide⟩,
    access_token_roundtrip "u1" "ada@example.com" "student" 0 900
      exWrongClassAccessTok (by decide) (by decide) (by decide) (by decide)⟩

/-- C9: change-password never touches the refresh-token store (the store, the
counter and the clock are returned unchanged on every branch), a success
implies the current password verified against the stored hash, the new
password passed the strength policy and the new hash is persisted on the
user's document, and a wrong current password is answered 401. -/
theorem change_password_frame (st : AuthState) (uid : String)
    (data : ChangePasswordRequest) :
    (change_password st uid data).state.refresh_tokens = st.refresh_tokens ∧
    (change_password st uid data).state.ctr = st.ctr ∧
    (change_password st uid data).state.now = st.now ∧
    ((change_password st uid data).outcome = .message "Password changed successfully" →
      ∃ u, findUserById st.users uid = some u ∧
        ∃ h, u.passwordHash = some h ∧ verify_password data.currentPassword h = true ∧
          (validate_password_strength data.newPassword).1 = true ∧
          { u with passwordHash := some (hash_password data.newPassword),
                   updatedAt := st.now } ∈ (change_password st uid data).state.users) ∧
    (∀ u h, findUserById st.users uid = some u → u.passwordHash = some h →
      verify_password data.currentPassword h = false →
      (change_password st uid data).outcome =
        .failure { status := 401, detail := "Current password is incorrect" }) := by
  obtain ⟨u2, hs⟩ := change_password_state st uid data
  refine ⟨by rw [hs], by rw [hs], by rw [hs], ?_, ?_⟩
  · intro heq
    cases hfind : findUserById st.users uid with
    | none => simp [change_password, hfind] at heq
    | some u =>
      cases hph : u.passwordHash with
      | none => simp [change_password, hfind, hph] at heq
      | some h =>
        by_cases hv : verify_password data.currentPassword h
        · cases hval : validate_password_strength data.newPassword with
          | mk b msg =>
            cases b with
            | false => simp [change_password, hfind, hph, hv, hval] at heq
            | true =>
              refine ⟨u, rfl, h, hph, hv, rfl, ?_⟩
              have husers : (change_password st uid data).state.users =
                  setUserPassword st.users uid (hash_password data.newPassword) st.now := by
                simp [change_password, hfind, hph, hv, hval]
              rw [husers]
              exact setUserPassword_mem st.users uid data.newPassword st.now u hfind
        · rw [Bool.not_eq_true] at hv
          simp [change_password, hfind, hph, hv] at heq
  · intro u h hfind hph hv
    simp [change_password, hfind, hph, hv]

/-- Witness for C9 at the concrete state: Ada changes her password
successfully; the refresh-token store is untouched. -/
theorem change_password_frame_witness :
    (change_password exSt "u1" exChange).state.refresh_tokens = exSt.refresh_tokens ∧
    (change_password exSt "u1" exChange).state.ctr = exSt.ctr ∧
    (change_password exSt "u1" exChange).state.now = exSt.now ∧
    ((change_password exSt "u1" exChange).outcome = .message "Password changed successfully" →
      ∃ u, findUserById exSt.users "u1" = some u ∧
        ∃ h, u.passwordHash = some h ∧
          verify_password exChange.currentPassword h = true ∧
          (validate_password_strength exChange.newPassword).1 = true ∧
          { u with passwordHash := some (hash_password exChange.newPassword),
                   updatedAt := exSt.now } ∈ (change_password exSt "u1" exChange).state.users) ∧
    (∀ u h, findUserById exSt.users "u1" = some u → u.passwordHash = some h →
      verify_password exChange.currentPassword h = false →
      (change_password exSt "u1" exChange).outcome =
        .failure { status := 401, detail := "Current password is incorrect" }) :=
  change_password_frame exSt "u1" exChange

/-- C10: whatever the registration request asked for — the schema accepts
role = "admin" — the stored user document carries role "student" and the
issued access token carries role "student". -/
theorem register_always_student (st : AuthState) (data : RegisterRequest)
    (pair : TokenPair)
    (hsucc : (register st data).outcome = .tokens pair) :
    (∃ u ∈ (register st data).state.users,
      u.email = data.email ∧ u.role = some "student") ∧
    pair.access_token.payload.role = "student" := by
  cases hval : validate_password_strength data.password with
  | mk b msg =>
    cases b with
    | false => simp [register, hval] at hsucc
    | true =>
      cases hfind : findUserByEmail st.users data.email with
      | some u => simp [register, hval, hfind] at hsucc
      | none =>
        have husers : (register st data).state.users =
            st.users ++ [registeredUserDoc st data] := by
          simp [register, hval, hfind, create_refresh_token, _store_refresh_token,
            registeredUserDoc]
        have hrole : pair.access_token.payload.role = "student" := by
          simp [register, hval, hfind, create_refresh_token,
            create_access_token] at hsucc
          rw [← hsucc]
        refine ⟨⟨registeredUserDoc st data, ?_, rfl, rfl⟩, hrole⟩
        rw [husers]
        exact List.mem_append_right _ (List.mem_singleton.mpr rfl)

/-- Witness for C10: registering on the empty state with a request carrying
role = "admin" still yields a student document and a student access token. -/
theorem register_always_student_witness :
    exRegisterAdmin.role = some "admin" ∧
    (register exStEmpty exRegisterAdmin).outcome = .tokens exRegPair ∧
    ((∃ u ∈ (register exStEmpty exRegisterAdmin).state.users,
      u.email = exRegisterAdmin.email ∧ u.role = some "student") ∧
      exRegPair.access_token.payload.role = "student") :=
  ⟨rfl, by decide,
    register_always_student exStEmpty exRegisterAdmin exRegPair (by decide)⟩

theorem validate_true_iff (pw : String) :
    (validate_password_strength pw).1 = true ↔ StrongPassword pw := by
  unfold validate_password_strength StrongPassword
  split_ifs with h1 h2 h3 h4 h5 <;>
    simp_all [List.any_eq_true, Nat.not_lt]

/-- C8: the strength check accepts exactly the passwords with at least 8
characters and at least one uppercase, lowercase, digit and symbol from the
defined punctuation set; rejection reports the specific violated rule (the
two spec examples evaluated); register answers 400 with that exact message
precisely when the check rejects (an accepted password can only fail on the
email, with the 409), and change-password (current password verified)
answers 400 with that message exactly when the check rejects the new
password. -/
theorem password_policy_exact (st st2 : AuthState) (pw : String)
    (data : RegisterRequest) (uid : String) (cdata : ChangePasswordRequest)
    (u : UserDoc) (h : String)
    (hu : findUserById st2.users uid = some u) (hh : u.passwordHash = some h)
    (hv : verify_password cdata.currentPassword h = true) :
    ((validate_password_strength pw).1 = true ↔ StrongPassword pw) ∧
    validate_password_strength "short" =
      (false, "Password must be at least 8 characters long") ∧
    validate_password_strength "nouppercase1!" =
      (false, "Password must contain at least one uppercase letter") ∧
    ((validate_password_strength data.password).1 = false →
      register st data =
        { outcome := .failure
            { status := 400, detail := (validate_password_strength data.password).2 },
          cookie := .noChange, state := st }) ∧
    ((validate_password_strength data.password).1 = true →
      (register st data).outcome.issuedTokens = true ∨
      (register st data).outcome = .failure
        { status := 409, detail := "An account with this email already exists" }) ∧
    ((validate_password_strength cdata.newPassword).1 = false →
      change_password st2 uid cdata =
        { outcome := .failure
            { status := 400, detail := (validate_password_strength cdata.newPassword).2 },
          cookie := .noChange, state := st2 }) ∧
    ((validate_password_strength cdata.newPassword).1 = true →
      (change_password st2 uid cdata).outcome =
        .message "Password changed successfully") := by
  refine ⟨validate_true_iff pw, by decide, by decide, ?_, ?_, ?_, ?_⟩
  · intro hf
    cases hval : validate_password_strength data.password with
    | mk b msg =>
      rw [hval] at hf
      subst hf
      simp [register, hval]
  · intro ht
    cases hval : validate_password_strength data.password with
    | mk b msg =>
      rw [hval] at ht
      subst ht
      cases hfind : findUserByEmail st.users data.email with
      | some v => exact Or.inr (by simp [register, hval, hfind])
      | none =>
        exact Or.inl (by simp [register, hval, hfind, create_refresh_token,
          _store_refresh_token, AuthOutcome.issuedTokens])
  · intro hf
    cases hval : validate_password_strength cdata.newPassword with
    | mk b msg =>
      rw [hval] at hf
      subst hf
      simp [change_password, hu, hh, hv, hval]
  · intro ht
    cases hval : validate_password_strength cdata.newPassword with
    | mk b msg =>
      rw [hval] at ht
      subst ht
      simp [change_password, hu, hh, hv, hval]

/-- Witness for C8 at concrete inputs: the generic password "Passw0rd!", the
two spec examples, and Ada's change-password request. -/
theorem password_policy_exact_witness :
    (findUserById exSt.users "u1" = some exUser ∧
      exUser.passwordHash = some adaHash ∧
      verify_password exChange.currentPassword adaHash = true) ∧
    (((validate_password_strength "Passw0rd!").1 = true ↔ StrongPassword "Passw0rd!") ∧
      validate_password_strength "short" =
        (false, "Password must be at least 8 characters long") ∧
      validate_password_strength "nouppercase1!" =
        (false, "Password must contain at least one uppercase letter") ∧
      ((validate_password_strength exRegisterAdmin.password).1 = false →
        register exStEmpty exRegisterAdmin =
          { outcome := .failure
              { status := 400,
                detail := (validate_password_strength exRegisterAdmin.password).2 },
            cookie := .noChange, state := exStEmpty }) ∧
      ((validate_password_strength exRegisterAdmin.password).1 = true →
        (register exStEmpty exRegisterAdmin).outcome.issuedTokens = true ∨
        (register exStEmpty exRegisterAdmin).outcome = .failure
          { status := 409, detail := "An account with this email already exists" }) ∧
      ((validate_password_strength exChange.newPassword).1 = false →
        change_password exSt "u1" exChange =
          { outcome := .failure
              { status := 400,
                detail := (validate_password_strength exChange.newPassword).2 },
            cookie := .noChange, state := exSt }) ∧
      ((validate_password_strength exChange.newPassword).1 = true →
        (change_password exSt "u1" exChange).outcome =
          .message "Password changed successfully")) :=
  ⟨⟨by decide, by decide, by decide⟩,
    password_policy_exact exStEmpty exSt "Passw0rd!" exRegisterAdmin "u1" exChange
      exUser adaHash (by decide) (by decide) (by decide)⟩

/-! Further store lemmas for the rotation-chain induction. -/

theorem markById_ids (l : List RefreshTokenRecord) (i : Nat) :
    (markRevokedById l i).map (fun r => r._id) = l.map (fun r => r._id) := by
  induction l with
  | nil => rfl
  | cons r rs ih =>
    simp only [markRevokedById]
    by_cases h : r._id = i <;> simp [h, ih]

theorem markById_mem_complete (l : List RefreshTokenRecord) (i : Nat)
    (r : RefreshTokenRecord) (hr : r ∈ l) :
    r ∈ markRevokedById l i ∨ { r with isRevoked := true } ∈ markRevokedById l i := by
  induction l with
  | nil => simp at hr
  | cons s rs ih =>
    simp only [markRevokedById]
    rcases List.mem_cons.mp hr with h1 | h2
    · subst h1
      by_cases h : r._id = i
      · rw [if_pos h]
        exact Or.inr (List.mem_cons_self _ _)
      · rw [if_neg h]
        exact Or.inl (List.mem_cons_self _ _)
    · by_cases h : s._id = i
      · rw [if_pos h]
        exact Or.inl (List.mem_cons_of_mem _ h2)
      · rw [if_neg h]
        rcases ih h2 with h3 | h3
        · exact Or.inl (List.mem_cons_of_mem _ h3)
        · exact Or.inr (List.mem_cons_of_mem _ h3)

theorem hasTokFam_markById (l : List RefreshTokenRecord) (t : RefreshTok)
    (fam : Nat) (i : Nat) (h : HasTokFam l t fam) :
    HasTokFam (markRevokedById l i) t fam := by
  rcases h with ⟨r, hr, htok, hfam⟩
  rcases markById_mem_complete l i r hr with h2 | h2
  · exact ⟨r, h2, htok, hfam⟩
  · exact ⟨{ r with isRevoked := true }, h2, htok, hfam⟩

theorem hasTokFam_append (l : List RefreshTokenRecord) (t : RefreshTok)
    (fam : Nat) (r : RefreshTokenRecord) (h : HasTokFam l t fam) :
    HasTokFam (l ++ [r]) t fam := by
  rcases h with ⟨s, hs, htok, hfam⟩
  exact ⟨s, List.mem_append_left _ hs, htok, hfam⟩

theorem setLastLogin_ids (l : List UserDoc) (uid : String) (now : Nat) :
    (setLastLogin l uid now).map (fun u => u._id) = l.map (fun u => u._id) := by
  induction l with
  | nil => rfl
  | cons u us ih =>
    simp only [setLastLogin]
    by_cases h : u._id = uid <;> simp [h, ih]

theorem login_success_spec (st : AuthState) (d : LoginRequest) (pair : TokenPair)
    (hsucc : (login st d).outcome = .tokens pair) :
    ∃ u, findUserByEmail st.users d.email = some u ∧
      pair.refresh_token = (loginRecord st u._id).token ∧
      (login st d).state =
        { st with
          users := setLastLogin st.users u._id st.now,
          refresh_tokens := st.refresh_tokens ++ [loginRecord st u._id],
          ctr := st.ctr + 3 } := by
  cases hfind : findUserByEmail st.users d.email with
  | none => simp [login, hfind] at hsucc
  | some u =>
    cases hph : u.passwordHash with
    | none => simp [login, hfind, hph] at hsucc
    | some h =>
      by_cases ha : u.isActive.getD true
      · by_cases hv : verify_password d.password h
        · refine ⟨u, rfl, ?_, ?_⟩
          · simp [login, hfind, hph, ha, hv, check_needs_rehash,
              create_refresh_token, create_access_token, loginRecord] at hsucc ⊢
            rw [← hsucc]
          · simp [login, hfind, hph, ha, hv, check_needs_rehash,
              create_refresh_token, _store_refresh_token, loginRecord]
        · rw [Bool.not_eq_true] at hv
          simp [login, hfind, hph, ha, hv] at hsucc
      · rw [Bool.not_eq_true] at ha
        simp [login, hfind, hph, ha] at hsucc

theorem rotateChain_spec (N : Nat) :
    ∀ (st : AuthState) (t : RefreshTok) (uid : String) (fam : Nat),
    t.key = REFRESH_SECRET_KEY →
    t.payload.type = "refresh" →
    t.payload.sub = uid →
    t.payload.family = fam →
    st.now < t.payload.exp →
    JtiFresh st → TokensNodup st → IdsNodup st → IdFresh st →
    (∃ r ∈ st.refresh_tokens, r.token = t ∧ r.isRevoked = false ∧ r.family = fam) →
    (∃ u ∈ st.users, u._id = uid) →
    ∃ ts st2,
      rotateChain st t N = some (ts, st2) ∧
      ts.length = N + 1 ∧
      ts.head? = some t ∧
      (∀ t' ∈ ts, t'.payload.family = fam) ∧
      List.Pairwise (fun a b : RefreshTok => a.payload.jti < b.payload.jti) ts ∧
      (∀ t' ∈ ts, HasTokFam st2.refresh_tokens t' fam) ∧
      (∃ tl, ts.getLast? = some tl ∧
        (∀ t' ∈ ts, t' ≠ tl → AllRevokedTok st2.refresh_tokens t') ∧
        (∀ r ∈ st2.refresh_tokens, r.token = tl → r.isRevoked = false)) ∧
      (∀ t' ∈ ts, t' = t ∨ st.ctr ≤ t'.payload.jti) ∧
      (∀ t2 : RefreshTok, t2.payload.jti < st.ctr →
        AllRevokedTok st.refresh_tokens t2 → AllRevokedTok st2.refresh_tokens t2) ∧
      (∀ t2 fam2, HasTokFam st.refresh_tokens t2 fam2 →
        HasTokFam st2.refresh_tokens t2 fam2) := by
  induction N with
  | zero =>
    intro st t uid fam hkey htype hsub hfam hexp hfresh hnodup hids hidf hrec huser
    obtain ⟨r, hrmem, hrtok, hrrev, hrfam⟩ := hrec
    have hnodup' : (st.refresh_tokens.map (fun x => x.token)).Nodup := hnodup
    refine ⟨[t], st, rfl, rfl, rfl, ?_, ?_, ?_, ⟨t, rfl, ?_, ?_⟩, ?_, ?_, ?_⟩
    · intro t' ht'
      simp at ht'
      subst ht'
      exact hfam
    · simp
    · intro t' ht'
      simp at ht'
      subst ht'
      exact ⟨r, hrmem, hrtok, hrfam⟩
    · intro t' ht' hne
      simp at ht'
      subst ht'
      exact absurd rfl hne
    · intro rec hmem htok
      have : rec = r :=
        List.inj_on_of_nodup_map hnodup' hmem hrmem (by rw [htok, hrtok])
      rw [this]
      exact hrrev
    · intro t' ht'
      simp at ht'
      subst ht'
      exact Or.inl rfl
    · intro t2 _ hall
      exact hall
    · intro t2 fam2 hh
      exact hh
  | succ n ih =>
    intro st t uid fam hkey htype hsub hfam hexp hfresh hnodup hids hidf hrec huser
    obtain ⟨r, hrmem, hrtok, hrrev, hrfam⟩ := hrec
    have hnodup' : (st.refresh_tokens.map (fun x => x.token)).Nodup := hnodup
    have hids' : (st.refresh_tokens.map (fun x => x._id)).Nodup := hids
    have hjti : t.payload.jti < st.ctr := by
      have := hfresh r hrmem
      rw [hrtok] at this
      exact this
    have hdec : decode_refresh_token st.now t = .ok t.payload := by
      have hnexp : ¬ (t.payload.exp ≤ st.now) := Nat.not_le.mpr hexp
      simp [decode_refresh_token, hkey, htype, hnexp]
    have hfind : findTokenRecord st.refresh_tokens t = some r := by
      have := findTokenRecord_of_mem st.refresh_tokens r hnodup' hrmem
      rwa [hrtok] at this
    obtain ⟨u, humem, huid⟩ := huser
    have huser2 : ∃ user, findUserById st.users t.payload.sub = some user := by
      have hsome : (st.users.find? (fun v => v._id = t.payload.sub)).isSome := by
        rw [List.find?_isSome]
        exact ⟨u, humem, by simp [huid, hsub]⟩
      exact Option.isSome_iff_exists.mp hsome
    obtain ⟨user, huserfind⟩ := huser2
    have hsucc : (refresh_token st (some t)).outcome.issuedTokens = true := by
      simp [refresh_token, hdec, hfind, refreshConsume, hrrev, huserfind,
        create_refresh_token, _store_refresh_token, AuthOutcome.issuedTokens]
    obtain ⟨p, stored, user2, hdec2, hfind2, hrev2, huf2, hstate, houtcome⟩ :=
      refresh_success_spec st t hsucc
    have hp : p = t.payload := by
      rw [hdec] at hdec2
      injection hdec2 with h
      exact h.symm
    subst hp
    have hstored : stored = r := by
      rw [hfind] at hfind2
      injection hfind2 with h
      exact h.symm
    subst hstored
    rcases hres : refresh_token st (some t) with ⟨o, ck, s2⟩
    rw [hres] at houtcome hstate
    simp only at houtcome hstate
    subst houtcome
    subst hstate
    -- the marked-plus-inserted state after the first rotation
    have hconsumed : AllRevokedTok
        (markRevokedById st.refresh_tokens stored._id ++ [rotatedRecord st t.payload])
        t := by
      refine allRevoked_append _ _ _ ?_ ?_
      · have := allRevoked_after_mark st.refresh_tokens stored hnodup' hids' hrmem
        rwa [hrtok] at this
      · have h1 : (rotatedRecord st t.payload).token.payload.jti = st.ctr := rfl
        intro he
        rw [he] at h1
        omega
    -- apply the induction hypothesis after the first rotation
    obtain ⟨ts', st2, hchain', hlen', hhead', hfam', hpw', hrecs',
        ⟨tl, hlast', hallrev', hactive'⟩, hlow', hpersA', hpersH'⟩ :=
      ih { st with
            refresh_tokens :=
              markRevokedById st.refresh_tokens stored._id ++ [rotatedRecord st t.payload],
            ctr := st.ctr + 2 }
        (rotatedRecord st t.payload).token uid fam rfl rfl
        (by show t.payload.sub = uid; exact hsub)
        (by show t.payload.family = fam; exact hfam)
        (by show st.now < st.now + REFRESH_TOKEN_EXPIRE_DAYS * 86400
            simp [REFRESH_TOKEN_EXPIRE_DAYS])
        (by intro r2 hr2
            show r2.token.payload.jti < st.ctr + 2
            rcases List.mem_append.mp hr2 with h1 | h2
            · rcases markById_mem_spec _ _ r2 h1 with ⟨s, hs, heq | heq⟩
              · rw [heq]
                have := hfresh s hs
                omega
              · rw [heq]
                show s.token.payload.jti < st.ctr + 2
                have := hfresh s hs
                omega
            · simp at h2
              subst h2
              show st.ctr < st.ctr + 2
              omega)
        (by show ((markRevokedById st.refresh_tokens stored._id ++
              [rotatedRecord st t.payload]).map (fun x => x.token)).Nodup
            rw [List.map_append, markById_tokens]
            rw [List.nodup_append]
            refine ⟨hnodup', by simp, ?_⟩
            intro x hx hx2
            simp at hx2
            subst hx2
            rcases List.mem_map.mp hx with ⟨s, hs, hstok⟩
            have h1 : (rotatedRecord st t.payload).token.payload.jti = st.ctr := rfl
            have h2 := hfresh s hs
            rw [hstok] at h2
            omega)
        (by show ((markRevokedById st.refresh_tokens stored._id ++
              [rotatedRecord st t.payload]).map (fun x => x._id)).Nodup
            rw [List.map_append, markById_ids]
            rw [List.nodup_append]
            refine ⟨hids', by simp, ?_⟩
            intro x hx hx2
            simp at hx2
            subst hx2
            rcases List.mem_map.mp hx with ⟨s, hs, hsid⟩
            have h2 := hidf s hs
            have h1 : (rotatedRecord st t.payload)._id = st.ctr + 1 := rfl
            rw [hsid] at h2
            omega)
        (by intro r2 hr2
            show r2._id < st.ctr + 2
            rcases List.mem_append.mp hr2 with h1 | h2
            · rcases markById_mem_spec _ _ r2 h1 with ⟨s, hs, heq | heq⟩
              · rw [heq]
                have := hidf s hs
                omega
              · rw [heq]
                show s._id < st.ctr + 2
                have := hidf s hs
                omega
            · simp at h2
              subst h2
              show st.ctr + 1 < st.ctr + 2
              omega)
        ⟨rotatedRecord st t.payload, List.mem_append_right _ (by simp), rfl, rfl,
          (by show t.payload.family = fam; exact hfam)⟩
        ⟨u, humem, huid⟩
    have htsne : ts' ≠ [] := by
      intro he
      rw [he] at hlen'
      simp at hlen'
    refine ⟨t :: ts', st2, ?_, ?_, rfl, ?_, ?_, ?_, ?_, ?_, ?_, ?_⟩
    · show rotateChain st t (n + 1) = some (t :: ts', st2)
      rw [rotateChain, hres]
      simp only
      rw [hchain']
    · simp [hlen']
    · intro t' ht'
      rcases List.mem_cons.mp ht' with h1 | h2
      · subst h1; exact hfam
      · exact hfam' t' h2
    · rw [List.pairwise_cons]
      refine ⟨?_, hpw'⟩
      intro t' ht'
      rcases hlow' t' ht' with h1 | h2
      · rw [h1]
        show t.payload.jti < st.ctr
        exact hjti
      · have : st.ctr + 2 ≤ t'.payload.jti := h2
        omega
    · intro t' ht'
      rcases List.mem_cons.mp ht' with h1 | h2
      · rw [h1]
        exact hpersH' t fam (hasTokFam_append _ _ _ _
          (hasTokFam_markById _ _ _ _ ⟨stored, hrmem, hrtok, hrfam⟩))
      · exact hrecs' t' h2
    · refine ⟨tl, ?_, ?_, hactive'⟩
      · obtain ⟨hd, tl2, rfl⟩ := List.exists_cons_of_ne_nil htsne
        rw [List.getLast?_cons_cons]
        exact hlast'
      · intro t' ht' hne
        rcases List.mem_cons.mp ht' with h1 | h2
        · rw [h1]
          exact hpersA' t (by show t.payload.jti < st.ctr + 2; omega) hconsumed
        · exact hallrev' t' h2 hne
    · intro t' ht'
      rcases List.mem_cons.mp ht' with h1 | h2
      · exact Or.inl h1
      · rcases hlow' t' h2 with h1 | h2'
        · rw [h1]
          right
          show st.ctr ≤ st.ctr
          omega
        · right
          have : st.ctr + 2 ≤ t'.payload.jti := h2'
          omega
    · intro t2 h2jti hall
      refine hpersA' t2 (by show t2.payload.jti < st.ctr + 2; omega) ?_
      refine allRevoked_append _ _ _ (allRevoked_markById _ _ _ hall) ?_
      intro he
      have h1 : (rotatedRecord st t.payload).token.payload.jti = st.ctr := rfl
      rw [he] at h1
      omega
    · intro t2 fam2 hh
      exact hpersH' t2 fam2
        (hasTokFam_append _ _ _ _ (hasTokFam_markById _ _ _ _ hh))

/-- C6: starting from a successful login on a well-formed state, every chain
of N successful rotations yields N+1 pairwise-distinct refresh-token values
that all carry the login's family; that family is created at login (it
matches no record existing before the login) and every rotation reuses it;
each chain token has a store record under that family, and after the N-th
rotation the most recently issued token is the only one of the chain whose
records are unrevoked — all earlier chain tokens are fully revoked. -/
theorem family_continuity (st : AuthState) (d : LoginRequest) (pair : TokenPair)
    (hwf : JtiFresh st ∧ FamFresh st ∧ IdFresh st ∧ TokensNodup st ∧ IdsNodup st)
    (hlogin : (login st d).outcome = .tokens pair) (N : Nat) :
    ∃ ts st2,
      rotateChain (login st d).state pair.refresh_token N = some (ts, st2) ∧
      ts.length = N + 1 ∧
      ts.head? = some pair.refresh_token ∧
      List.Pairwise (fun a b : RefreshTok => a ≠ b) ts ∧
      (∀ t' ∈ ts, t'.payload.family = pair.refresh_token.payload.family) ∧
      (∀ r ∈ st.refresh_tokens, r.family ≠ pair.refresh_token.payload.family) ∧
      (∀ t' ∈ ts, HasTokFam st2.refresh_tokens t' pair.refresh_token.payload.family) ∧
      (∃ tl, ts.getLast? = some tl ∧
        (∀ t' ∈ ts, t' ≠ tl → AllRevokedTok st2.refresh_tokens t') ∧
        (∀ r ∈ st2.refresh_tokens, r.token = tl → r.isRevoked = false)) := by
  obtain ⟨hfresh, hfamf, hidf, hnodup, hids⟩ := hwf
  obtain ⟨u, hufind, hpr, hstate⟩ := login_success_spec st d pair hlogin
  have humem : u ∈ st.users := List.mem_of_find?_eq_some hufind
  have hfampair : pair.refresh_token.payload.family = st.ctr := by rw [hpr]; rfl
  have huser1 : ∃ u2 ∈ setLastLogin st.users u._id st.now, u2._id = u._id := by
    have h1 : u._id ∈ (setLastLogin st.users u._id st.now).map (fun v => v._id) := by
      rw [setLastLogin_ids]
      exact List.mem_map.mpr ⟨u, humem, rfl⟩
    rcases List.mem_map.mp h1 with ⟨u2, hu2, hid2⟩
    exact ⟨u2, hu2, hid2⟩
  obtain ⟨ts, st2, hchain, hlen, hhead, hfam', hpw, hrecs, hlast, _, _, _⟩ :=
    rotateChain_spec N
      { st with
        users := setLastLogin st.users u._id st.now,
        refresh_tokens := st.refresh_tokens ++ [loginRecord st u._id],
        ctr := st.ctr + 3 }
      pair.refresh_token u._id st.ctr
      (by rw [hpr]; rfl) (by rw [hpr]; rfl) (by rw [hpr]; rfl) (by rw [hpr]; rfl)
      (by rw [hpr]
          show st.now < st.now + REFRESH_TOKEN_EXPIRE_DAYS * 86400
          simp [REFRESH_TOKEN_EXPIRE_DAYS])
      (by intro r2 hr2
          show r2.token.payload.jti < st.ctr + 3
          rcases List.mem_append.mp hr2 with h1 | h2
          · have := hfresh r2 h1
            omega
          · simp at h2
            subst h2
            show st.ctr + 1 < st.ctr + 3
            omega)
      (by show ((st.refresh_tokens ++ [loginRecord st u._id]).map
            (fun x => x.token)).Nodup
          rw [List.map_append, List.nodup_append]
          refine ⟨hnodup, by simp, ?_⟩
          intro x hx hx2
          simp at hx2
          subst hx2
          rcases List.mem_map.mp hx with ⟨s, hs, hstok⟩
          have h2 := hfresh s hs
          rw [hstok] at h2
          have h1 : (loginRecord st u._id).token.payload.jti = st.ctr + 1 := rfl
          omega)
      (by show ((st.refresh_tokens ++ [loginRecord st u._id]).map
            (fun x => x._id)).Nodup
          rw [List.map_append, List.nodup_append]
          refine ⟨hids, by simp, ?_⟩
          intro x hx hx2
          simp at hx2
          subst hx2
          rcases List.mem_map.mp hx with ⟨s, hs, hsid⟩
          have h2 := hidf s hs
          rw [hsid] at h2
          have h1 : (loginRecord st u._id)._id = st.ctr + 2 := rfl
          omega)
      (by intro r2 hr2
          show r2._id < st.ctr + 3
          rcases List.mem_append.mp hr2 with h1 | h2
          · have := hidf r2 h1
            omega
          · simp at h2
            subst h2
            show st.ctr + 2 < st.ctr + 3
            omega)
      ⟨loginRecord st u._id, List.mem_append_right _ (by simp), hpr.symm, rfl, rfl⟩
      huser1
  rw [hstate]
  refine ⟨ts, st2, hchain, hlen, hhead, ?_, ?_, ?_, ?_, hlast⟩
  · exact hpw.imp (fun hab he => by rw [he] at hab; exact absurd hab (lt_irrefl _))
  · intro t' ht'
    rw [hfampair]
    exact hfam' t' ht'
  · intro r2 hr2
    rw [hfampair]
    exact Nat.ne_of_lt (hfamf r2 hr2)
  · intro t' ht'
    rw [hfampair]
    exact hrecs t' ht'

/-- Witness for C6: Ada logs in on exSt (family 6 freshly drawn) and rotates
twice; the three tokens are distinct, share family 6, and only the last is
unrevoked. -/
theorem family_continuity_witness :
    (JtiFresh exSt ∧ FamFresh exSt ∧ IdFresh exSt ∧ TokensNodup exSt ∧
      IdsNodup exSt) ∧
    (login exSt exLogin).outcome = .tokens exLoginPair ∧
    (∃ ts st2,
      rotateChain (login exSt exLogin).state exLoginPair.refresh_token 2 =
        some (ts, st2) ∧
      ts.length = 2 + 1 ∧
      ts.head? = some exLoginPair.refresh_token ∧
      List.Pairwise (fun a b : RefreshTok => a ≠ b) ts ∧
      (∀ t' ∈ ts, t'.payload.family = exLoginPair.refresh_token.payload.family) ∧
      (∀ r ∈ exSt.refresh_tokens,
        r.family ≠ exLoginPair.refresh_token.payload.family) ∧
      (∀ t' ∈ ts, HasTokFam st2.refresh_tokens t'
        exLoginPair.refresh_token.payload.family) ∧
      (∃ tl, ts.getLast? = some tl ∧
        (∀ t' ∈ ts, t' ≠ tl → AllRevokedTok st2.refresh_tokens t') ∧
        (∀ r ∈ st2.refresh_tokens, r.token = tl → r.isRevoked = false))) :=
  ⟨by decide, by decide,
    family_continuity exSt exLogin exLoginPair (by decide) (by decide) 2⟩
